import Mathlib

/-!
# Verification of the Sprinkl recommendation core

Shallow embedding of the recipe-recommendation core of the Sprinkl
repository, and proofs checking its natural-language specification
against it.

Embedding conventions:
* Stored feature vectors come from JSON text in the `recipes` table
  (`feature_vector` column).  Python's `json.loads` accepts the numeric
  literals `NaN`, `Infinity` and `-Infinity`, so a stored vector entry is
  either a finite number (a decimal literal, hence a rational) or one of
  those three non-finite markers.  We model an entry as `JsonNum`.
* Engine arithmetic (`numpy` float operations) is idealised over `ℝ`:
  means, weighted sums, Euclidean norms and cosine similarities are the
  exact real operations.  After the engine's explicit NaN/Inf validation
  no non-finite value can arise in the idealisation, so the re-checks
  that the Python code performs downstream are vacuously true here.
* SQL row order for `WHERE id IN (...)` queries is unspecified, and
  `_get_recipe_ids` returns a Python set whose iteration order is
  hash-salted and varies between processes.  Definitions quantifying
  over a single run fix request/store order; where the order is
  observable in the result (the equal-score tie order of the ranker),
  the candidate enumeration is an explicit parameter
  (`findSimilarRecipesOrd`).
* The dimension-mismatch error paths of `numpy`/`sklearn` are modelled
  by the error-aware variants `computeSimilarityBatchE` and
  `findSimilarRecipesE`, whose `none` result is an uncaught exception;
  the plain definitions model the non-raising, equal-dimension paths.
-/

namespace Sprinkl



/-- One numeric entry of a JSON-decoded feature vector: a finite value
(every finite IEEE float is rational) or one of the non-finite literals
Python's `json.loads` accepts. -/
inductive JsonNum where
  | num (q : ℚ)
  | nan
  | inf
  | ninf
deriving DecidableEq, Repr

namespace JsonNum

/-- `np.isnan(x) or np.isinf(x)` for one entry. -/
def nonFinite : JsonNum → Bool
  | num _ => false
  | _ => true

/-- `x == 0` for one entry (NumPy comparisons with NaN/Inf are `False`
against zero). -/
def isZero : JsonNum → Bool
  | num q => q = 0
  | _ => false

/-- The real value of a finite entry; non-finite entries are only read
after the engine's validation rejected them, so the default is never
observable. -/
def toReal : JsonNum → ℝ
  | num q => (q : ℝ)
  | _ => 0

end JsonNum

/-- A raw stored feature vector, as JSON-decoded by the engine. -/
abbrev RawVec := List JsonNum

/-- `np.any(np.isnan(v)) or np.any(np.isinf(v))` on a raw vector. -/
def RawVec.anyNonFinite (v : RawVec) : Bool := v.any JsonNum.nonFinite

/-- `np.all(v == 0)` on a raw vector. -/
def RawVec.allZero (v : RawVec) : Bool := v.all JsonNum.isZero

/-- The idealised real vector of a raw stored vector. -/
def RawVec.toReals (v : RawVec) : List ℝ := v.map JsonNum.toReal

/--
The `recipes` table as the engine sees it: one row per recipe id (the id
is the primary key), carrying the `feature_vector` column.  `none` is a
SQL NULL; `some v` is JSON text that decodes to the numeric list `v`.
(A row whose text is not valid JSON behaves, in every code path below,
exactly like a NULL row once `json.loads` raises and the engine skips
it, so it is folded into `none`.)
-/
abbrev Store := List (String × Option RawVec)

/-- `SELECT feature_vector FROM recipes WHERE id = %s` — the first (only)
row for the id. -/
def Store.lookup (store : Store) (id : String) : Option (Option RawVec) :=
  (store.find? (fun row => row.1 = id)).map Prod.snd

/-- `SELECT id FROM recipes WHERE feature_vector IS NOT NULL`
(`RecommendationEngine._get_recipe_ids`): ids of rows whose column is
non-NULL, in store order. -/
def Store.presentIds (store : Store) : List String :=
  (store.filter (fun row => row.2.isSome)).map Prod.fst

/-! ## Real vector arithmetic (idealised `numpy`) -/

/-- Componentwise sum of two equal-length vectors (`numpy +`). -/
def vadd (v w : List ℝ) : List ℝ := List.zipWith (· + ·) v w

/-- Scalar multiple (`weight * vector`). -/
def vscale (c : ℝ) (v : List ℝ) : List ℝ := v.map (fun x => c * x)

/-- Dot product (truncating at the shorter vector the way `zipWith`
does).  `np.dot`/`cosine_similarity` instead raise on mismatched
lengths; the error-aware batch model (`computeSimilarityBatchE` below)
routes mismatched dimensions to the error paths, so only equal lengths
reach this operation there. -/
def vdot (v w : List ℝ) : ℝ := (List.zipWith (· * ·) v w).sum

/-- Sum of squares of the entries. -/
def sumSq (v : List ℝ) : ℝ := (v.map (fun x => x ^ 2)).sum

/-- Euclidean norm, `np.linalg.norm`. -/
noncomputable def vnorm (v : List ℝ) : ℝ := Real.sqrt (sumSq v)

/-- `v / np.linalg.norm(v)`. -/
noncomputable def vnormalize (v : List ℝ) : List ℝ :=
  v.map (fun x => x / vnorm v)

/-- `sklearn.metrics.pairwise.cosine_similarity` of two single vectors:
the dot product over the norm product.  sklearn replaces a zero norm by
one, which makes the similarity `0`; Lean's `x / 0 = 0` convention gives
the same value, so plain division is a faithful model. -/
noncomputable def cosineSim (v w : List ℝ) : ℝ :=
  vdot v w / (vnorm v * vnorm w)

/-! ## Vector Store Accessor
(`RecommendationEngine._get_recipe_feature_vector` and
`_get_multiple_feature_vectors` in `src/api/recommendation_engine.py`)

Both share the same validation of a decoded vector: reject if any entry
is NaN/Inf, reject if all entries equal zero, then normalize, rejecting
a non-positive norm. -/

/-- The shared validation-and-normalization block applied to one decoded
feature vector. -/
noncomputable def validateNormalize (raw : RawVec) : Option (List ℝ) :=
  if raw.anyNonFinite then none
  else if raw.allZero then none
  else if 0 < vnorm raw.toReals then some (vnormalize raw.toReals)
  else none

/-- The stored (raw) feature vector of an id: `none` when the row is
missing or its column is NULL. -/
def storedVec (store : Store) (id : String) : Option RawVec :=
  (store.lookup id).getD none

/-- `RecommendationEngine._get_recipe_feature_vector`: fetch the row,
decode, validate, normalize; every failure path returns `None`. -/
noncomputable def getRecipeFeatureVector (store : Store) (id : String) :
    Option (List ℝ) :=
  (storedVec store id).bind validateNormalize

/-- `RecommendationEngine._get_multiple_feature_vectors`: one entry per
requested id that has a present, valid vector; invalid and missing ids
are skipped (logged in the source, never raised).  The source repeats
the per-vector fetch/decode/validate block of
`_get_recipe_feature_vector` verbatim inside its row loop, so the
per-id behaviour is that function's. -/
noncomputable def getMultipleFeatureVectors (store : Store)
    (ids : List String) : List (String × List ℝ) :=
  ids.filterMap (fun id =>
    (getRecipeFeatureVector store id).map (fun v => (id, v)))

/-- Python dict access on the result of the bulk fetch. -/
def fvLookup (m : List (String × List ℝ)) (id : String) :
    Option (List ℝ) :=
  (m.find? (fun p => p.1 = id)).map Prod.snd

/-! ## Stable descending sort

Python's `list.sort(key=lambda x: x[1], reverse=True)` is a stable sort:
entries are ordered by descending score and equal-score entries keep
their original relative order.  The stable descending permutation of a
list is unique, so any stable sorting algorithm is extensionally the
same function; we embed it as stable insertion sort. -/

/-- Insert an entry coming *before* the tail (in original order) into an
already sorted tail: it goes in front of the first entry whose score is
`≤` its own, which keeps equal-score entries in original order. -/
noncomputable def insertDesc (x : String × ℝ) :
    List (String × ℝ) → List (String × ℝ)
  | [] => [x]
  | y :: ys => if y.2 ≤ x.2 then x :: y :: ys else y :: insertDesc x ys

/-- Stable sort by descending score. -/
noncomputable def sortByScoreDesc :
    List (String × ℝ) → List (String × ℝ)
  | [] => []
  | x :: xs => insertDesc x (sortByScoreDesc xs)

/-- Scores weakly decrease along the sorted list. -/
def ScoresDesc (l : List (String × ℝ)) : Prop :=
  l.Pairwise (fun a b => b.2 ≤ a.2)

/-! ## Similarity Ranker
(`RecommendationEngine._compute_similarity_batch` and
`find_similar_recipes` in `src/api/recommendation_engine.py`) -/

/-- The batch slices produced by `for i in range(0, len(l), bs)` with
`l[i : i + bs]`.  For `bs = 0` Python's `range` raises, so that case is
irrelevant (the embedding then returns nonsense chunks and every theorem
assumes `0 < bs`). -/
def chunksOf (bs : ℕ) : List α → List (List α)
  | [] => []
  | x :: xs => ((x :: xs).take bs) :: chunksOf bs (xs.drop (bs - 1))
termination_by l => l.length
decreasing_by
  simp only [List.length_drop, List.length_cons]
  omega

/-- `RecommendationEngine._compute_similarity_batch`, non-raising path:
fetch the batch's valid vectors, score each against the target with
cosine similarity, and drop excluded ids.  (The target/NaN
re-validations of the source are identically true in the real-number
idealisation.)  The source's dimension-mismatch error paths are modelled
by `computeSimilarityBatchE` below, which collapses to this definition
on an equal-dimension batch. -/
noncomputable def computeSimilarityBatch (store : Store) (target : List ℝ)
    (ids : List String) (exclude : List String) : List (String × ℝ) :=
  let fvs := getMultipleFeatureVectors store ids
  if fvs.isEmpty then []
  else (fvs.map (fun p => (p.1, cosineSim target p.2))).filter
    (fun p => !(exclude.contains p.1))

/-- `RecommendationEngine.find_similar_recipes`: candidate ids are all
rows with a non-NULL vector column minus the excluded ids; they are
scored in batches of `batchSize`, merged, stably sorted by descending
score, and cut to `numRecipes`.  (The source additionally joins recipe
metadata onto each `(id, score)` pair; the join does not change ids,
scores or order, so the embedding returns the pairs.) -/
noncomputable def findSimilarRecipes (store : Store)
    (preference : Option (List ℝ)) (numRecipes : ℕ)
    (exclude : List String) (batchSize : ℕ) : List (String × ℝ) :=
  match preference with
  | none => []
  | some pref =>
    let available :=
      store.presentIds.filter (fun id => !(exclude.contains id))
    if available.isEmpty then []
    else
      let allSims := (chunksOf batchSize available).flatMap
        (fun batch => computeSimilarityBatch store pref batch exclude)
      (sortByScoreDesc allSims).take numRecipes

/-- `find_similar_recipes` with the candidate enumeration made explicit.
The source enumerates candidates as `list(self._get_recipe_ids())` —
the iteration order of a Python set of ids, which is hash-salted and
varies between processes — and per-batch score order is the unspecified
SQL row order observed through the fetched dict.  `idOrder` is the
enumeration actually observed in one run; a faithful instance is any
permutation of `Store.presentIds`, and `findSimilarRecipes` above is
the instance at store order. -/
noncomputable def findSimilarRecipesOrd (store : Store)
    (idOrder : List String) (preference : Option (List ℝ))
    (numRecipes : ℕ) (exclude : List String) (batchSize : ℕ) :
    List (String × ℝ) :=
  match preference with
  | none => []
  | some pref =>
    if (idOrder.filter (fun id => !(exclude.contains id))).isEmpty
      then []
    else (sortByScoreDesc ((chunksOf batchSize (idOrder.filter
        (fun id => !(exclude.contains id)))).flatMap
        (fun batch => computeSimilarityBatch store pref batch
          exclude))).take numRecipes

/-- Modelled from the spec, §4.4: the single-pass reference form of
`rank` — score every non-excluded candidate with a valid vector in one
pass, stable-sort by descending score (ties keep candidate order), and
return the first `k`.  Used to show the batched implementation refines
it. -/
noncomputable def rankSinglePass (store : Store) (pref : List ℝ)
    (exclude : List String) (k : ℕ) : List (String × ℝ) :=
  let candidates :=
    (store.presentIds.filter (fun id => !(exclude.contains id))).filterMap
      (fun id => (getRecipeFeatureVector store id).map
        (fun v => (id, cosineSim pref v)))
  (sortByScoreDesc candidates).take k

/-- The candidate (id, score) list of the single-pass ranker. -/
noncomputable def singlePassScores (store : Store) (pref : List ℝ)
    (exclude : List String) : List (String × ℝ) :=
  (store.presentIds.filter (fun id => !(exclude.contains id))).filterMap
    (fun id => (getRecipeFeatureVector store id).map
      (fun v => (id, cosineSim pref v)))

/-- The candidate (id, score) list of the ranker under the explicit
candidate enumeration `idOrder`. -/
noncomputable def singlePassScoresOrd (store : Store)
    (idOrder : List String) (pref : List ℝ) (exclude : List String) :
    List (String × ℝ) :=
  (idOrder.filter (fun id => !(exclude.contains id))).filterMap
    (fun id => (getRecipeFeatureVector store id).map
      (fun v => (id, cosineSim pref v)))

/-- A stored vector passes the accessor's validation. -/
def isValidRaw (raw : RawVec) : Bool := !raw.anyNonFinite && !raw.allZero

/-- The id has a stored vector that passes validation. -/
def hasValidVector (store : Store) (id : String) : Bool :=
  match storedVec store id with
  | some raw => isValidRaw raw
  | none => false

/-- Number of scorable candidates: present, valid, not excluded. -/
def scorableCount (store : Store) (exclude : List String) : ℕ :=
  ((store.presentIds.filter (fun id => !(exclude.contains id))).filter
    (hasValidVector store)).length

/-- Demo corpus for witnesses: two valid unit vectors, a NULL row and an
all-zero row. -/
def demoStore : Store :=
  [("a", some [JsonNum.num 1, JsonNum.num 0]),
   ("b", some [JsonNum.num 0, JsonNum.num 1]),
   ("c", none),
   ("z", some [JsonNum.num 0, JsonNum.num 0])]

/-- A corpus holding vectors of two different dimensions, both valid for
the accessor. -/
def dimStore : Store :=
  [("a", some [JsonNum.num 1, JsonNum.num 0]),
   ("b", some [JsonNum.num 1])]

/-- A corpus of two items with the same stored vector: both score
identically against any target, exposing the equal-score tie order of
the ranker. -/
def c3Store : Store :=
  [("p", some [JsonNum.num 0, JsonNum.num 1]),
   ("q", some [JsonNum.num 0, JsonNum.num 1])]

/-- The dimensions of a fetched batch's vectors, in batch order. -/
def dimsOf (fvs : List (String × List ℝ)) : List ℕ :=
  fvs.map (fun p => p.2.length)

/-- Whether every dimension in the list agrees with the first (an empty
list is uniform): whether `np.array` builds a rectangular array from
the batch rather than raising on a ragged one. -/
def uniformDims (ds : List ℕ) : Bool :=
  ds.all (fun d => d = ds.headD 0)

/-- `RecommendationEngine._compute_similarity_batch` with its
dimension-mismatch error paths made explicit.  In the source,
`np.array(list(feature_vectors.values()))` is built before the
`try` block, so a batch mixing two vector dimensions (a ragged array)
raises right there and the exception propagates to the caller —
modelled as `none`.  A dimensionally uniform batch reaches
`cosine_similarity` inside the `try`, which raises `ValueError` when
the batch dimension differs from the target's; that exception is
caught by the `except` branch, which logs and returns `[]`, silently
discarding the whole batch's candidates.  Matching dimensions score
normally, as in `computeSimilarityBatch`. -/
noncomputable def computeSimilarityBatchE (store : Store)
    (target : List ℝ) (ids exclude : List String) :
    Option (List (String × ℝ)) :=
  if (getMultipleFeatureVectors store ids).isEmpty then some []
  else if uniformDims (dimsOf (getMultipleFeatureVectors store ids))
    then
    if (dimsOf (getMultipleFeatureVectors store ids)).headD 0 =
        target.length then
      some (((getMultipleFeatureVectors store ids).map
        (fun p => (p.1, cosineSim target p.2))).filter
          (fun p => !(exclude.contains p.1)))
    else some []
  else none

/-- `RecommendationEngine.find_similar_recipes` with the batch scorer's
error behaviour made explicit: a raising batch aborts the whole call
(`none` — the source has no handler around its batch loop), otherwise
the surviving batches' scores are merged, stably sorted and cut exactly
as in `findSimilarRecipes`. -/
noncomputable def findSimilarRecipesE (store : Store)
    (preference : Option (List ℝ)) (numRecipes : ℕ)
    (exclude : List String) (batchSize : ℕ) :
    Option (List (String × ℝ)) :=
  match preference with
  | none => some []
  | some pref =>
    if (store.presentIds.filter
        (fun id => !(exclude.contains id))).isEmpty then some []
    else if ((chunksOf batchSize (store.presentIds.filter
        (fun id => !(exclude.contains id)))).map
        (fun batch => computeSimilarityBatchE store pref batch
          exclude)).any (fun r => r.isNone) then none
    else some ((sortByScoreDesc (((chunksOf batchSize
        (store.presentIds.filter
          (fun id => !(exclude.contains id)))).map
        (fun batch => computeSimilarityBatchE store pref batch
          exclude)).filterMap (fun r => r)).flatten).take numRecipes)

/-- Sum of a list of vectors, `none` when the list is empty (the
corresponding term is then omitted, never treated as zero). -/
noncomputable def vsumOpt : List (List ℝ) → Option (List ℝ)
  | [] => none
  | v :: vs => some (vs.foldl vadd v)

/-- Mean of a list of vectors (`np.mean(axis=0)`), `none` on the empty
list. -/
noncomputable def vmeanOpt (vs : List (List ℝ)) : Option (List ℝ) :=
  (vsumOpt vs).map (vscale (1 / (vs.length : ℝ)))

/-- Combine two optional terms, omitting absent ones. -/
noncomputable def optAdd :
    Option (List ℝ) → Option (List ℝ) → Option (List ℝ)
  | none, b => b
  | some a, none => some a
  | some a, some b => some (vadd a b)

/-- One step of the accumulation loops of
`compute_user_preference_vector`: add `weight * vector` when the id has
a fetched vector, otherwise keep the accumulator. -/
noncomputable def accumWeighted (fvs : List (String × List ℝ)) (w : ℝ)
    (acc : Option (List ℝ)) (id : String) : Option (List ℝ) :=
  match fvLookup fvs id with
  | none => acc
  | some v =>
    match acc with
    | none => some (vscale w v)
    | some p => some (vadd p (vscale w v))

/-- `RecommendationEngine.compute_user_preference_vector`: return `None`
when both feedback lists are empty or no feedback id has a valid vector;
otherwise accumulate `like_weight * v` over liked ids and
`dislike_weight * v` over disliked ids (each counted once per list
occurrence, skipped when unfetched), then unit-normalize, returning
`None` on a zero norm. -/
noncomputable def computeUserPreferenceVector (store : Store)
    (liked disliked : List String) (likeWeight dislikeWeight : ℝ) :
    Option (List ℝ) :=
  if liked.isEmpty && disliked.isEmpty then none
  else if (getMultipleFeatureVectors store (liked ++ disliked)).isEmpty
    then none
  else
    match disliked.foldl
        (accumWeighted (getMultipleFeatureVectors store (liked ++ disliked))
          dislikeWeight)
        (liked.foldl
          (accumWeighted
            (getMultipleFeatureVectors store (liked ++ disliked))
            likeWeight) none) with
    | none => none
    | some p => if 0 < vnorm p then some (vnormalize p) else none

/-- Modelled from the amended claim: the normalized combination
`like_weight * sum(liked hits) + dislike_weight * sum(disliked hits)`
(sums, not means), each term omitted when its hit list is empty, `none`
on cold input, on no hits, or on a zero-norm combination. -/
noncomputable def specSumAggregate (store : Store)
    (liked disliked : List String) (lw dw : ℝ) : Option (List ℝ) :=
  if liked.isEmpty && disliked.isEmpty then none
  else if (getMultipleFeatureVectors store (liked ++ disliked)).isEmpty
    then none
  else
    match optAdd
        ((vsumOpt (liked.filterMap
          (fvLookup (getMultipleFeatureVectors store
            (liked ++ disliked))))).map (vscale lw))
        ((vsumOpt (disliked.filterMap
          (fvLookup (getMultipleFeatureVectors store
            (liked ++ disliked))))).map (vscale dw)) with
    | none => none
    | some p => if 0 < vnorm p then some (vnormalize p) else none

/-- Modelled from the spec, §4.3 (the claim's formula): the normalized
combination `like_weight * mean(liked vectors) + dislike_weight *
mean(disliked vectors)`, each term omitted when its vector list is
empty; `none` when both lists are empty after filtering or when the
combination has zero norm. -/
noncomputable def specMeanAggregate (store : Store)
    (liked disliked : List String) (lw dw : ℝ) : Option (List ℝ) :=
  if (liked.filterMap (getRecipeFeatureVector store)).isEmpty &&
      (disliked.filterMap (getRecipeFeatureVector store)).isEmpty then
    none
  else
    match optAdd
        ((vmeanOpt (liked.filterMap (getRecipeFeatureVector store))).map
          (vscale lw))
        ((vmeanOpt (disliked.filterMap
          (getRecipeFeatureVector store))).map (vscale dw)) with
    | none => none
    | some p => if 0 < vnorm p then some (vnormalize p) else none

/-- The weighted combination built by
`ElasticsearchService._create_user_preference_vector` before its
normalization step: start from `np.zeros_like` of the first vector, add
`like_weight * mean(liked)` and `dislike_weight * mean(disliked)` when
the respective map is nonempty. -/
noncomputable def esCombination
    (likedFVs dislikedFVs : List (String × List ℝ)) (lw dw : ℝ) :
    List ℝ :=
  let d := match likedFVs with
    | f :: _ => f.2.length
    | [] => match dislikedFVs with
      | f :: _ => f.2.length
      | [] => 0
  let base := List.replicate d (0 : ℝ)
  let p1 := match vmeanOpt (likedFVs.map Prod.snd) with
    | some m => vadd base (vscale lw m)
    | none => base
  match vmeanOpt (dislikedFVs.map Prod.snd) with
  | some m => vadd p1 (vscale dw m)
  | none => p1

/-- `ElasticsearchService._create_user_preference_vector`: `None` when
both maps are empty, otherwise the combination above, normalized only
when its norm is positive — on exact cancellation the unnormalized
(zero) vector is returned rather than `None`.  (The `except` path —
e.g. a NumPy shape mismatch — returns `None` and is outside this model,
whose inputs are equal-dimension maps.) -/
noncomputable def esCreateUserPreferenceVector
    (likedFVs dislikedFVs : List (String × List ℝ)) (lw dw : ℝ) :
    Option (List ℝ) :=
  if likedFVs.isEmpty && dislikedFVs.isEmpty then none
  else if 0 < vnorm (esCombination likedFVs dislikedFVs lw dw) then
    some (vnormalize (esCombination likedFVs dislikedFVs lw dw))
  else some (esCombination likedFVs dislikedFVs lw dw)

/-- A one-dimensional corpus of three identical unit vectors. -/
def c2Store : Store :=
  [("a", some [JsonNum.num 1]),
   ("b", some [JsonNum.num 1]),
   ("c", some [JsonNum.num 1])]

/-- The (id, vector) rows of the engine's feature matrix, in query
order. -/
noncomputable def recVectors (corpus : Store) : List (String × List ℝ) :=
  corpus.filterMap (fun row => row.2.map (fun raw => (row.1, raw.toReals)))

/-- `recipe_id in self.recipe_ids` followed by
`feature_matrix[recipe_ids.index(recipe_id)]`: the first matching row's
vector. -/
noncomputable def recVecLookup (corpus : Store) (id : String) :
    Option (List ℝ) :=
  ((recVectors corpus).find? (fun p => p.1 = id)).map Prod.snd

/-- `RecommendationEngine.generate_recommendations`
(`src/api/rec_engine.py`): empty when no vectors loaded; a random
sample of `min(k, n)` ids on no feedback; otherwise the mean-based
preference vector (term omitted for a side with no matrix hits, `[]`
when neither side hits), cosine scores against every loaded row,
exclusion of previously recommended/liked/disliked ids, stable
descending sort, first `k` ids. -/
noncomputable def recEngineGenerate (corpus : Store)
    (liked disliked prevRecommended : List String)
    (numRecommendations : ℕ) (likeWeight dislikeWeight : ℝ)
    (sample : List String → ℕ → List String) : List String :=
  if (recVectors corpus).isEmpty then []
  else if liked.isEmpty && disliked.isEmpty then
    sample (Store.presentIds corpus)
      (min numRecommendations (Store.presentIds corpus).length)
  else
    match (match vmeanOpt (liked.filterMap (recVecLookup corpus)) with
      | some m =>
        match vmeanOpt (disliked.filterMap (recVecLookup corpus)) with
        | some md => some (vadd (vscale likeWeight m)
            (vscale dislikeWeight md))
        | none => some (vscale likeWeight m)
      | none =>
        match vmeanOpt (disliked.filterMap (recVecLookup corpus)) with
        | some md => some (vscale dislikeWeight md)
        | none => none) with
    | none => []
    | some pref =>
      ((sortByScoreDesc
        (((recVectors corpus).map
          (fun p => (p.1, cosineSim pref p.2))).filter
            (fun p =>
              !((prevRecommended ++ liked ++ disliked).contains
                p.1)))).take numRecommendations).map Prod.fst

/-! ## Offline vectorization pipeline (`src/db_init/init.py`) -/

/-- The text attributes of a recipe as read by
`prepare_recipe_text`. -/
structure RecipeDoc where
  title : String
  description : String
  ingredients : List String
  instructions : List String
  keywords : List String
  category : String
  cuisine : String
  dietaryRestrictions : List String

/-- `prepare_recipe_text` (`src/db_init/init.py`, identical in
`es_service.py`): concatenate the truthy text attributes, lists joined
by spaces, all parts joined by spaces. -/
def prepareRecipeText (r : RecipeDoc) : String :=
  String.intercalate " " (
    (if r.title ≠ "" then [r.title] else []) ++
    (if r.description ≠ "" then [r.description] else []) ++
    (if r.ingredients ≠ [] then
      [String.intercalate " " r.ingredients] else []) ++
    (if r.instructions ≠ [] then
      [String.intercalate " " r.instructions] else []) ++
    (if r.keywords ≠ [] then
      [String.intercalate " " r.keywords] else []) ++
    (if r.category ≠ "" then [r.category] else []) ++
    (if r.cuisine ≠ "" then [r.cuisine] else []) ++
    (if r.dietaryRestrictions ≠ [] then
      [String.intercalate " " r.dietaryRestrictions] else []))

/-- Python's `text.strip()` truthiness test: the text is blank when it
contains only whitespace. -/
def isBlank (s : String) : Bool := s.data.all Char.isWhitespace

/-- The `feature_vector` recorded for a recipe by the Elasticsearch
indexing loop of `src/db_init/init.py`: the fitted TF-IDF+PCA pipeline's
vector (abstracted as `fitted`, fit outside this model) when the cleaned
text is nonempty (`if text.strip()`), and the explicit all-zero vector
of dimension `D` otherwise — the recipe is indexed either way, never
skipped. -/
def initIndexedVector (D : ℕ) (fitted : RecipeDoc → List ℝ)
    (r : RecipeDoc) : List ℝ :=
  if isBlank (prepareRecipeText r) then List.replicate D 0
  else fitted r

/-- A recipe whose text attributes are all empty. -/
def emptyRecipe : RecipeDoc :=
  ⟨"", "", [], [], [], "", "", []⟩

/-- A corpus as the init pipeline leaves it: one normal item and one
empty-text item carrying the zero-vector fallback. -/
def c4Store : Store :=
  [("good", some [JsonNum.num 1, JsonNum.num 0]),
   ("empty", some [JsonNum.num 0, JsonNum.num 0])]

/-! ## Recommendation Session Manager
(`RecommendationEngine.get_random_recipes` and `get_recommendations` in
`src/api/recommendation_engine.py`) -/

/-- `RecommendationEngine.get_random_recipes`: the non-excluded ids
with a present (non-NULL) vector column — no validity filtering — all
of them when no more than `num_recipes` exist, else a random sample of
`num_recipes`.  (`list(set - set)` order is modelled as store
order.) -/
def getRandomRecipes (store : Store) (numRecipes : ℕ)
    (exclude : List String) (sample : List String → ℕ → List String) :
    List String :=
  if ((Store.presentIds store).filter
      (fun id => !(exclude.contains id))).length ≤ numRecipes then
    (Store.presentIds store).filter (fun id => !(exclude.contains id))
  else
    sample ((Store.presentIds store).filter
      (fun id => !(exclude.contains id))) numRecipes

/-- `RecommendationEngine.get_recommendations`: serve 10 random recipes
(the cold-start count is hardcoded, ignoring `num_recommendations`)
when the user has no feedback; otherwise compute the preference vector
at the default weights, fall back to `num_recommendations` random
recipes when it is `None`, else rank with the seen ids excluded.  (The
`except` branch returns `[]` on a database error; the model's store
never raises.) -/
noncomputable def getRecommendations (store : Store)
    (liked disliked : List String) (numRecommendations : ℕ)
    (sample : List String → ℕ → List String) : List String :=
  if liked.isEmpty && disliked.isEmpty then
    getRandomRecipes store 10 (liked ++ disliked) sample
  else
    match computeUserPreferenceVector store liked disliked 1 (-1/2) with
    | none =>
      getRandomRecipes store numRecommendations (liked ++ disliked)
        sample
    | some pref =>
      ((findSimilarRecipes store (some pref) numRecommendations
        (liked ++ disliked) 1000).take numRecommendations).map Prod.fst

/-- A corpus of two items whose stored vectors are all-zero: present,
but invalid for the accessor. -/
def c7Store : Store :=
  [("a", some [JsonNum.num 0, JsonNum.num 0]),
   ("b", some [JsonNum.num 0, JsonNum.num 0])]

/-! ## Feedback and queue persistence, and the feedback endpoint
(`submit_feedback` in `src/api/main.py`; `DatabaseManager` in
`src/api/database.py`)

`main.py` imports `DatabaseManager` from `src/api/database.py`, whose
`submit_feedback` (the feedback upsert) and `save_recommendations` (the
queue upsert, which REPLACES the stored id list) carry the SQL
`INSERT ... ON DUPLICATE KEY UPDATE`.  The reading/removal helpers the
endpoint calls (`get_feedback`, `get_recommendations`,
`remove_recommendation`) are not under `src/`; they are modelled from
the spec's collaborator contracts (§6).  Database calls are modelled as
performed. -/

/-- `INSERT ... ON DUPLICATE KEY UPDATE`: replace the keyed row's value
or append a new row. -/
def upsert {κ ν : Type} [DecidableEq κ] (tbl : List (κ × ν)) (k : κ)
    (v : ν) : List (κ × ν) :=
  if tbl.any (fun row => row.1 = k) then
    tbl.map (fun row => if row.1 = k then (row.1, v) else row)
  else tbl ++ [(k, v)]

/-- `SELECT ... WHERE key = %s`: the keyed row's value. -/
def alookup {κ ν : Type} [DecidableEq κ] (tbl : List (κ × ν)) (k : κ) :
    Option ν :=
  (tbl.find? (fun row => row.1 = k)).map Prod.snd

/-- One row per (user, recipe) pair carrying the current polarity; the
pair is the table's unique key. -/
abbrev FeedbackTable := List ((String × String) × String)

/-- One row per user carrying the persisted
`recommended_recipe_ids`. -/
abbrev RecTable := List (String × List String)

/-- `DatabaseManager.submit_feedback` (`src/api/database.py`): upsert of
the polarity under the (user, recipe) key — a repeat submission
overwrites the prior polarity.  `main.py` calls this operation as
`save_feedback`. -/
def dbSaveFeedback (tbl : FeedbackTable) (userId recipeId pol : String) :
    FeedbackTable :=
  upsert tbl (userId, recipeId) pol

/-- `DatabaseManager.save_recommendations` (`src/api/database.py`,
lines 374-400): upsert of `recommended_recipe_ids` under the user key —
the stored list is REPLACED by the given one. -/
def dbSaveRecommendations (tbl : RecTable) (userId : String)
    (ids : List String) : RecTable :=
  upsert tbl userId ids

/-- The stored recommendation list
(`DatabaseManager.get_saved_recommendations`; `main.py` reads it as
`get_recommendations`): `[]` when the user has no row. -/
def dbGetRecommendations (tbl : RecTable) (userId : String) :
    List String :=
  (alookup tbl userId).getD []

/-- Modelled from the spec: `remove_from_queue` (§6) /
`db.remove_recommendation`, absent from `src/`: delete the recipe from
the user's stored recommendation list. -/
def dbRemoveRecommendation (tbl : RecTable) (userId recipeId : String) :
    RecTable :=
  tbl.map (fun row =>
    if row.1 = userId then (row.1, row.2.erase recipeId) else row)

/-- Modelled from the spec: `get_feedback` (§6) splitting a user's
records into liked and disliked id lists (as
`DatabaseManager.get_user_feedback` does in `src/api/database.py`). -/
def dbGetFeedback (tbl : FeedbackTable) (userId : String) :
    List String × List String :=
  ((tbl.filter (fun row => row.1.1 = userId && row.2 = "like")).map
      (fun row => row.1.2),
   (tbl.filter (fun row => row.1.1 = userId && row.2 = "dislike")).map
      (fun row => row.1.2))

/-- The `submit_feedback` endpoint (`src/api/main.py`): record the
feedback (upsert), remove the recipe from the stored recommendations,
regenerate exactly one recommendation from the post-write feedback and
post-removal queue, and persist it with `save_recommendations` — which
replaces the stored list with the single replacement.  `gen` abstracts
`es_service.generate_recommendations` (an Elasticsearch search outside
this model).  When `gen` returns an empty list the code raises
`IndexError` at `rec_ids[0]` (HTTP 500); the feedback write and the
removal have already committed, and the result carries `none`. -/
def submitFeedback (fb : FeedbackTable) (rec : RecTable)
    (userId recipeId pol : String)
    (gen : List String × List String → List String → ℕ → List String) :
    FeedbackTable × RecTable × Option String :=
  let fb' := dbSaveFeedback fb userId recipeId pol
  let rec' := dbRemoveRecommendation rec userId recipeId
  match (gen (dbGetFeedback fb' userId)
      (dbGetRecommendations rec' userId) 1).head? with
  | none => (fb', rec', none)
  | some r => (fb', dbSaveRecommendations rec' userId [r], some r)

/-! ## Theorems -/

/-! ### Basic lemmas about the vector arithmetic -/

theorem sumSq_nonneg (v : List ℝ) : 0 ≤ sumSq v := by
  induction v with
  | nil => simp [sumSq]
  | cons x xs ih =>
    simp only [sumSq, List.map_cons, List.sum_cons]
    have hx : (0 : ℝ) ≤ x ^ 2 := sq_nonneg x
    simpa [sumSq] using add_nonneg hx ih

theorem vnorm_nonneg (v : List ℝ) : 0 ≤ vnorm v := Real.sqrt_nonneg _

theorem sumSq_map_div (v : List ℝ) (c : ℝ) :
    sumSq (v.map (fun x => x / c)) = sumSq v / c ^ 2 := by
  induction v with
  | nil => simp [sumSq]
  | cons x xs ih =>
    simp only [sumSq, List.map_cons, List.sum_cons] at *
    rw [ih]
    ring

theorem vnorm_normalize (v : List ℝ) (h : vnorm v ≠ 0) :
    vnorm (vnormalize v) = 1 := by
  have hd : Real.sqrt (sumSq v) = vnorm v := rfl
  calc vnorm (vnormalize v)
      = Real.sqrt (sumSq (v.map (fun x => x / vnorm v))) := rfl
    _ = Real.sqrt (sumSq v / vnorm v ^ 2) := by rw [sumSq_map_div]
    _ = Real.sqrt (sumSq v) / Real.sqrt (vnorm v ^ 2) :=
        Real.sqrt_div (sumSq_nonneg v) _
    _ = vnorm v / vnorm v := by rw [hd, Real.sqrt_sq (vnorm_nonneg v)]
    _ = 1 := div_self h

theorem sumSq_pos_of_mem {v : List ℝ} {x : ℝ} (hx : x ∈ v) (hne : x ≠ 0) :
    0 < sumSq v := by
  induction v with
  | nil => cases hx
  | cons y ys ih =>
    simp only [sumSq, List.map_cons, List.sum_cons]
    rcases List.mem_cons.mp hx with h | h
    · subst h
      have : (0 : ℝ) < x ^ 2 := by positivity
      have := sumSq_nonneg ys
      simp only [sumSq] at this
      linarith
    · have := ih h
      simp only [sumSq] at this
      have hy : (0 : ℝ) ≤ y ^ 2 := sq_nonneg y
      linarith

/-- After the NaN/Inf and all-zero checks pass, the norm is positive, so
the final `norm > 0` guard of the source always succeeds. -/
theorem vnorm_pos_of_valid (raw : RawVec)
    (h1 : raw.anyNonFinite = false) (h2 : raw.allZero = false) :
    0 < vnorm raw.toReals := by
  have h2' : ¬ (raw.all JsonNum.isZero = true) := by
    rw [show raw.all JsonNum.isZero = false from h2]
    simp
  rw [List.all_eq_true] at h2'
  push_neg at h2'
  obtain ⟨e, he, hez⟩ := h2'
  have h1' : ¬ (raw.any JsonNum.nonFinite = true) := by
    rw [show raw.any JsonNum.nonFinite = false from h1]
    simp
  rw [List.any_eq_true] at h1'
  push_neg at h1'
  cases e with
  | num q =>
    have hq : q ≠ 0 := by
      intro h
      apply hez
      simp [JsonNum.isZero, h]
    have hmem : (q : ℝ) ∈ raw.toReals := by
      rw [RawVec.toReals]
      exact List.mem_map.mpr ⟨JsonNum.num q, he, rfl⟩
    have hqr : (q : ℝ) ≠ 0 := by exact_mod_cast hq
    exact Real.sqrt_pos.mpr (sumSq_pos_of_mem hmem hqr)
  | nan => exact absurd rfl (h1' _ he)
  | inf => exact absurd rfl (h1' _ he)
  | ninf => exact absurd rfl (h1' _ he)

theorem validateNormalize_eq_some (raw : RawVec)
    (h1 : raw.anyNonFinite = false) (h2 : raw.allZero = false) :
    validateNormalize raw = some (vnormalize raw.toReals) := by
  unfold validateNormalize
  rw [h1, h2]
  simp [vnorm_pos_of_valid raw h1 h2]

theorem validateNormalize_eq_some_iff (raw : RawVec) (v : List ℝ) :
    validateNormalize raw = some v ↔
      raw.anyNonFinite = false ∧ raw.allZero = false ∧
        v = vnormalize raw.toReals := by
  by_cases hnf : raw.anyNonFinite
  · simp [validateNormalize, hnf]
  · by_cases hz : raw.allZero
    · simp [validateNormalize, hnf, hz]
    · rw [validateNormalize_eq_some raw (Bool.not_eq_true _ ▸ hnf)
        (Bool.not_eq_true _ ▸ hz)]
      simp [Bool.not_eq_true _ ▸ hnf, Bool.not_eq_true _ ▸ hz, eq_comm]

/-- Full characterization of a successful single lookup. -/
theorem getRecipeFeatureVector_eq_some (store : Store) (id : String)
    (v : List ℝ) :
    getRecipeFeatureVector store id = some v ↔
      ∃ raw, storedVec store id = some raw ∧
        raw.anyNonFinite = false ∧ raw.allZero = false ∧
        v = vnormalize raw.toReals := by
  unfold getRecipeFeatureVector
  rw [Option.bind_eq_some]
  constructor
  · rintro ⟨raw, hraw, hval⟩
    exact ⟨raw, hraw, (validateNormalize_eq_some_iff raw v).mp hval⟩
  · rintro ⟨raw, hraw, h1, h2, hv⟩
    exact ⟨raw, hraw, (validateNormalize_eq_some_iff raw v).mpr ⟨h1, h2, hv⟩⟩

/-- Full characterization of the bulk accessor's contents. -/
theorem mem_getMultipleFeatureVectors (store : Store) (ids : List String)
    (id : String) (v : List ℝ) :
    (id, v) ∈ getMultipleFeatureVectors store ids ↔
      id ∈ ids ∧ ∃ raw, storedVec store id = some raw ∧
        raw.anyNonFinite = false ∧ raw.allZero = false ∧
        v = vnormalize raw.toReals := by
  unfold getMultipleFeatureVectors
  rw [List.mem_filterMap]
  constructor
  · rintro ⟨id', hid', hmap⟩
    rw [Option.map_eq_some'] at hmap
    obtain ⟨w, hw, heq⟩ := hmap
    obtain ⟨hida, hwv⟩ : id' = id ∧ w = v := by
      constructor <;> [exact congrArg Prod.fst heq; exact congrArg Prod.snd heq]
    rw [hida, hwv] at hw
    exact ⟨hida ▸ hid', (getRecipeFeatureVector_eq_some store id v).mp hw⟩
  · rintro ⟨hid, hex⟩
    exact ⟨id, hid, by
      rw [(getRecipeFeatureVector_eq_some store id v).mpr hex]; rfl⟩

/-- Every vector the bulk accessor returns is the unit normalization of
the stored vector. -/
theorem getMultipleFeatureVectors_unit (store : Store) (ids : List String)
    (id : String) (v : List ℝ)
    (h : (id, v) ∈ getMultipleFeatureVectors store ids) :
    vnorm v = 1 := by
  obtain ⟨-, raw, -, h1, h2, hv⟩ :=
    (mem_getMultipleFeatureVectors store ids id v).mp h
  have := vnorm_pos_of_valid raw h1 h2
  rw [hv]
  exact vnorm_normalize _ (ne_of_gt this)

theorem mem_insertDesc (x a : String × ℝ) (l : List (String × ℝ)) :
    a ∈ insertDesc x l ↔ a = x ∨ a ∈ l := by
  induction l with
  | nil => simp [insertDesc]
  | cons y ys ih =>
    unfold insertDesc
    by_cases h : y.2 ≤ x.2
    · simp [h]
    · rw [if_neg h]
      simp only [List.mem_cons, ih]
      tauto

theorem length_insertDesc (x : String × ℝ) (l : List (String × ℝ)) :
    (insertDesc x l).length = l.length + 1 := by
  induction l with
  | nil => rfl
  | cons y ys ih =>
    unfold insertDesc
    by_cases h : y.2 ≤ x.2
    · simp [h]
    · rw [if_neg h]
      simp [ih]

theorem length_sortByScoreDesc (l : List (String × ℝ)) :
    (sortByScoreDesc l).length = l.length := by
  induction l with
  | nil => rfl
  | cons x xs ih =>
    unfold sortByScoreDesc
    rw [length_insertDesc, ih, List.length_cons]

theorem perm_insertDesc (x : String × ℝ) (l : List (String × ℝ)) :
    (insertDesc x l).Perm (x :: l) := by
  induction l with
  | nil => rfl
  | cons y ys ih =>
    unfold insertDesc
    by_cases h : y.2 ≤ x.2
    · rw [if_pos h]
    · rw [if_neg h]
      exact (List.Perm.cons y ih).trans (List.Perm.swap x y ys)

theorem perm_sortByScoreDesc (l : List (String × ℝ)) :
    (sortByScoreDesc l).Perm l := by
  induction l with
  | nil => rfl
  | cons x xs ih =>
    exact (perm_insertDesc x (sortByScoreDesc xs)).trans (.cons x ih)

theorem scoresDesc_insertDesc (x : String × ℝ) (l : List (String × ℝ))
    (h : ScoresDesc l) : ScoresDesc (insertDesc x l) := by
  induction l with
  | nil => simp [insertDesc, ScoresDesc]
  | cons y ys ih =>
    unfold insertDesc
    rw [ScoresDesc, List.pairwise_cons] at h
    obtain ⟨hy, hys⟩ := h
    by_cases hc : y.2 ≤ x.2
    · rw [if_pos hc]
      refine List.Pairwise.cons ?_ (List.Pairwise.cons hy hys)
      intro b hb
      rcases List.mem_cons.mp hb with rfl | hb
      · exact hc
      · exact le_trans (hy b hb) hc
    · rw [if_neg hc]
      refine List.Pairwise.cons ?_ (ih hys)
      intro b hb
      rcases (mem_insertDesc x b ys).mp hb with rfl | hb
      · exact le_of_not_le hc
      · exact hy b hb

theorem scoresDesc_sortByScoreDesc (l : List (String × ℝ)) :
    ScoresDesc (sortByScoreDesc l) := by
  induction l with
  | nil => exact List.Pairwise.nil
  | cons x xs ih => exact scoresDesc_insertDesc x _ ih

/-- Stability: for each score `s`, the sorted list restricted to the
entries of score `s` is exactly the input restricted to those entries —
equal-score entries keep their original relative order. -/
theorem filter_insertDesc (x : String × ℝ) (l : List (String × ℝ))
    (p : String × ℝ → Bool)
    (hkey : ∀ a b : String × ℝ, p a → p b → a.2 = b.2) :
    (insertDesc x l).filter p =
      if p x then x :: l.filter p else l.filter p := by
  induction l with
  | nil =>
    by_cases hx : p x = true <;>
      simp [insertDesc, List.filter_cons, hx]
  | cons y ys ih =>
    unfold insertDesc
    by_cases hc : y.2 ≤ x.2
    · rw [if_pos hc, List.filter_cons]
    · rw [if_neg hc, List.filter_cons]
      by_cases hy : p y = true
      · have hx : ¬ p x = true := fun hx => hc (le_of_eq (hkey y x hy hx))
        rw [if_pos hy, ih, if_neg hx, if_neg hx, List.filter_cons, if_pos hy]
      · rw [if_neg hy, ih, List.filter_cons, if_neg hy]

theorem filter_sortByScoreDesc (l : List (String × ℝ))
    (p : String × ℝ → Bool)
    (hkey : ∀ a b : String × ℝ, p a → p b → a.2 = b.2) :
    (sortByScoreDesc l).filter p = l.filter p := by
  induction l with
  | nil => rfl
  | cons x xs ih =>
    unfold sortByScoreDesc
    rw [filter_insertDesc x _ p hkey, List.filter_cons, ih]

theorem flatten_chunksOf (bs : ℕ) (hbs : 0 < bs) (l : List α) :
    (chunksOf bs l).flatten = l := by
  suffices h : ∀ n (l : List α), l.length ≤ n →
      (chunksOf bs l).flatten = l from h l.length l le_rfl
  intro n
  induction n with
  | zero =>
    intro l hl
    rw [List.length_eq_zero.mp (Nat.le_zero.mp hl), chunksOf]
    rfl
  | succ n ih =>
    intro l hl
    cases l with
    | nil => rw [chunksOf]; rfl
    | cons x xs =>
      rw [chunksOf, List.flatten_cons]
      have hlen : (xs.drop (bs - 1)).length ≤ n := by
        rw [List.length_drop]
        rw [List.length_cons] at hl
        omega
      rw [ih _ hlen]
      have hdrop : xs.drop (bs - 1) = (x :: xs).drop bs := by
        cases bs with
        | zero => exact absurd hbs (by simp)
        | succ b => simp
      rw [hdrop, List.take_append_drop]

/-- The early-return and the general branch of
`_compute_similarity_batch` coincide, giving a closed form. -/
theorem computeSimilarityBatch_eq (store : Store) (target : List ℝ)
    (ids exclude : List String) :
    computeSimilarityBatch store target ids exclude =
      ((getMultipleFeatureVectors store ids).map
        (fun p => (p.1, cosineSim target p.2))).filter
          (fun p => !(exclude.contains p.1)) := by
  unfold computeSimilarityBatch
  by_cases h : (getMultipleFeatureVectors store ids).isEmpty
  · rw [if_pos h]
    rw [List.isEmpty_iff] at h
    rw [h]
    rfl
  · rw [if_neg h]

theorem getMultipleFeatureVectors_append (store : Store)
    (ids₁ ids₂ : List String) :
    getMultipleFeatureVectors store (ids₁ ++ ids₂) =
      getMultipleFeatureVectors store ids₁ ++
        getMultipleFeatureVectors store ids₂ := by
  unfold getMultipleFeatureVectors
  exact List.filterMap_append _ _ _

/-- Merging batch results reproduces the single-pass scored list: the
scores of the concatenated batches equal the scores of the whole
candidate list. -/
theorem flatMap_computeSimilarityBatch (store : Store) (target : List ℝ)
    (exclude : List String) (bs : ℕ) (hbs : 0 < bs)
    (ids : List String) :
    (chunksOf bs ids).flatMap
        (fun batch => computeSimilarityBatch store target batch exclude) =
      computeSimilarityBatch store target ids exclude := by
  have hsplit : ∀ (chunks : List (List String)),
      chunks.flatMap
          (fun batch => computeSimilarityBatch store target batch exclude) =
        computeSimilarityBatch store target chunks.flatten exclude := by
    intro chunks
    induction chunks with
    | nil => simp [computeSimilarityBatch_eq, getMultipleFeatureVectors]
    | cons c cs ih =>
      rw [List.flatMap_cons, List.flatten_cons, ih,
        computeSimilarityBatch_eq, computeSimilarityBatch_eq,
        computeSimilarityBatch_eq, getMultipleFeatureVectors_append,
        List.map_append, List.filter_append]
  rw [hsplit, flatten_chunksOf bs hbs ids]

theorem rankSinglePass_def (store : Store) (pref : List ℝ)
    (exclude : List String) (k : ℕ) :
    rankSinglePass store pref exclude k =
      (sortByScoreDesc (singlePassScores store pref exclude)).take k := rfl

/-- The batched implementation computes exactly the single-pass ranking:
batching is a performance detail, not a semantics change. -/
theorem findSimilarRecipes_eq_singlePass (store : Store) (pref : List ℝ)
    (exclude : List String) (k bs : ℕ) (hbs : 0 < bs) :
    findSimilarRecipes store (some pref) k exclude bs =
      rankSinglePass store pref exclude k := by
  have hlhs : findSimilarRecipes store (some pref) k exclude bs =
      (if (store.presentIds.filter
            (fun id => !(exclude.contains id))).isEmpty then []
       else (sortByScoreDesc ((chunksOf bs (store.presentIds.filter
          (fun id => !(exclude.contains id)))).flatMap
          (fun batch => computeSimilarityBatch store pref batch exclude))).take
            k) := rfl
  rw [hlhs, rankSinglePass_def]
  by_cases hav : (store.presentIds.filter
      (fun id => !(exclude.contains id))).isEmpty
  · rw [if_pos hav]
    rw [List.isEmpty_iff] at hav
    rw [singlePassScores, hav]
    simp [sortByScoreDesc]
  · rw [if_neg hav,
      flatMap_computeSimilarityBatch store pref exclude bs hbs,
      computeSimilarityBatch_eq]
    congr 1
    congr 1
    unfold getMultipleFeatureVectors singlePassScores
    rw [List.map_filterMap]
    have hfn : ∀ id : String,
        ((getRecipeFeatureVector store id).map (fun v => (id, v))).map
            (fun p => (p.1, cosineSim pref p.2)) =
          (getRecipeFeatureVector store id).map
            (fun v => (id, cosineSim pref v)) := by
      intro id
      rw [Option.map_map]
      rfl
    rw [funext hfn]
    apply List.filter_eq_self.mpr
    intro p hp
    rw [List.mem_filterMap] at hp
    obtain ⟨id, hid, hmap⟩ := hp
    rw [Option.map_eq_some'] at hmap
    obtain ⟨v, -, heq⟩ := hmap
    have hp1 : p.1 = id := by rw [← heq]
    rw [List.mem_filter] at hid
    rw [hp1]
    exact hid.2

/-- Every pair the ranker outputs originates in some batch's filtered
score list; in particular its id survived the exclusion filter. -/
theorem mem_findSimilarRecipes_not_excluded (store : Store)
    (preference : Option (List ℝ)) (k : ℕ) (exclude : List String)
    (bs : ℕ) (p : String × ℝ)
    (hp : p ∈ findSimilarRecipes store preference k exclude bs) :
    ¬ p.1 ∈ exclude := by
  cases preference with
  | none => cases hp
  | some pref =>
    have hlhs : findSimilarRecipes store (some pref) k exclude bs =
        (if (store.presentIds.filter
              (fun id => !(exclude.contains id))).isEmpty then []
         else (sortByScoreDesc ((chunksOf bs (store.presentIds.filter
            (fun id => !(exclude.contains id)))).flatMap
            (fun batch =>
              computeSimilarityBatch store pref batch exclude))).take
              k) := rfl
    rw [hlhs] at hp
    by_cases hav : (store.presentIds.filter
        (fun id => !(exclude.contains id))).isEmpty
    · rw [if_pos hav] at hp
      cases hp
    · rw [if_neg hav] at hp
      have hp2 := List.take_subset _ _ hp
      have hp3 := (perm_sortByScoreDesc _).subset hp2
      rw [List.mem_flatMap] at hp3
      obtain ⟨batch, -, hpb⟩ := hp3
      rw [computeSimilarityBatch_eq, List.mem_filter] at hpb
      intro hmem
      have := hpb.2
      rw [Bool.not_eq_true', ← Bool.not_eq_true] at this
      exact this (List.elem_iff.mpr hmem)

theorem isSome_getRecipeFeatureVector (store : Store) (id : String) :
    (getRecipeFeatureVector store id).isSome = hasValidVector store id := by
  unfold getRecipeFeatureVector hasValidVector
  cases hs : storedVec store id with
  | none => rfl
  | some raw =>
    rw [Option.some_bind]
    by_cases h1 : raw.anyNonFinite
    · simp [validateNormalize, h1, isValidRaw]
    · by_cases h2 : raw.allZero
      · simp [validateNormalize, h1, h2, isValidRaw]
      · rw [validateNormalize_eq_some raw
          (Bool.not_eq_true _ ▸ h1) (Bool.not_eq_true _ ▸ h2)]
        simp [isValidRaw, Bool.not_eq_true _ ▸ h1, Bool.not_eq_true _ ▸ h2]

theorem length_filterMap_eq_length_filter {α β : Type} (f : α → Option β)
    (l : List α) :
    (l.filterMap f).length = (l.filter (fun a => (f a).isSome)).length := by
  induction l with
  | nil => rfl
  | cons x xs ih =>
    rw [List.filterMap_cons, List.filter_cons]
    cases hf : f x with
    | none => simpa [hf] using ih
    | some b => simpa [hf] using ih

theorem length_singlePassScores (store : Store) (pref : List ℝ)
    (exclude : List String) :
    (singlePassScores store pref exclude).length =
      scorableCount store exclude := by
  unfold singlePassScores scorableCount
  rw [length_filterMap_eq_length_filter]
  congr 1
  apply List.filter_congr
  intro id _
  have hmap : ∀ (o : Option (List ℝ)) (f : List ℝ → String × ℝ),
      (o.map f).isSome = o.isSome := by
    intro o f
    cases o <;> rfl
  rw [hmap, isSome_getRecipeFeatureVector]

/-- Length of the ranked output: the min of `k` and the number of
scorable candidates. -/
theorem length_findSimilarRecipes (store : Store) (pref : List ℝ)
    (exclude : List String) (k bs : ℕ) (hbs : 0 < bs) :
    (findSimilarRecipes store (some pref) k exclude bs).length =
      min k (scorableCount store exclude) := by
  rw [findSimilarRecipes_eq_singlePass store pref exclude k bs hbs,
    rankSinglePass_def, List.length_take, length_sortByScoreDesc,
    length_singlePassScores]

/-- C1 — For every preference vector, every exclusion set, every
corpus, every `k` and every batch size, no id belonging to the
exclusion set appears in the output of the similarity ranking: neither
in `find_similar_recipes` (exclusion set `exclude`) nor in the
similarity path of `rec_engine.generate_recommendations` (exclusion set
previously-recommended ∪ liked ∪ disliked; its no-feedback branch has
no preference vector and is the session manager's random fallback). -/
theorem C1_rank_never_returns_excluded (store : Store)
    (preference : Option (List ℝ)) (k bs : ℕ) (exclude : List String)
    (id : String) (h : id ∈ exclude) :
    id ∉ (findSimilarRecipes store preference k exclude bs).map
        Prod.fst ∧
      ∀ (liked disliked prev : List String) (lw dw : ℝ)
        (sample : List String → ℕ → List String),
        (liked.isEmpty && disliked.isEmpty) = false →
        id ∈ prev ++ liked ++ disliked →
        id ∉ recEngineGenerate store liked disliked prev k lw dw
          sample := by
  constructor
  · intro hmem
    rw [List.mem_map] at hmem
    obtain ⟨p, hp, hfst⟩ := hmem
    exact mem_findSimilarRecipes_not_excluded store preference k exclude
      bs p hp (hfst ▸ h)
  · intro liked disliked prev lw dw sample hfb hmem hout
    unfold recEngineGenerate at hout
    by_cases hmat : (recVectors store).isEmpty
    · rw [if_pos hmat] at hout
      exact absurd hout (List.not_mem_nil id)
    · rw [if_neg hmat, if_neg (by rw [hfb]; simp)] at hout
      split at hout
      · exact absurd hout (List.not_mem_nil id)
      · rw [List.mem_map] at hout
        obtain ⟨p, hp, hfst⟩ := hout
        have hp2 := List.take_subset _ _ hp
        have hp3 := (perm_sortByScoreDesc _).subset hp2
        rw [List.mem_filter] at hp3
        have := hp3.2
        rw [Bool.not_eq_true', ← Bool.not_eq_true] at this
        exact this (List.elem_iff.mpr (hfst ▸ hmem))

/-- Witness for C1 at a concrete corpus, exclusion set and feedback
state. -/
theorem C1_rank_never_returns_excluded_witness :
    "a" ∈ ["a", "z"] ∧
      "a" ∉ (findSimilarRecipes demoStore (some [1, 0]) 5 ["a", "z"]
        1000).map Prod.fst ∧
      ((["b"] : List String).isEmpty &&
        ([] : List String).isEmpty) = false ∧
      "a" ∈ ["a"] ++ ["b"] ++ ([] : List String) ∧
      "a" ∉ recEngineGenerate demoStore ["b"] [] ["a"] 5 1 (-1/2)
        (fun l n => l.take n) :=
  ⟨by decide,
    (C1_rank_never_returns_excluded demoStore (some [1, 0]) 5 1000
      ["a", "z"] "a" (by decide)).1,
    by decide, by decide,
    (C1_rank_never_returns_excluded demoStore (some [1, 0]) 5 1000
        ["a", "z"] "a" (by decide)).2 ["b"] [] ["a"] 1 (-1/2)
      (fun l n => l.take n) (by decide) (by decide)⟩

/-- The order-parameterized ranker equals one stable sort of the
single-pass scores under the same enumeration, for every positive batch
size. -/
theorem findSimilarRecipesOrd_eq_sorted (store : Store)
    (idOrder : List String) (pref : List ℝ) (exclude : List String)
    (k bs : ℕ) (hbs : 0 < bs) :
    findSimilarRecipesOrd store idOrder (some pref) k exclude bs =
      (sortByScoreDesc (singlePassScoresOrd store idOrder pref
        exclude)).take k := by
  have hlhs : findSimilarRecipesOrd store idOrder (some pref) k exclude
      bs =
      (if (idOrder.filter (fun id => !(exclude.contains id))).isEmpty
        then []
       else (sortByScoreDesc ((chunksOf bs (idOrder.filter
          (fun id => !(exclude.contains id)))).flatMap
          (fun batch => computeSimilarityBatch store pref batch
            exclude))).take k) := rfl
  rw [hlhs]
  by_cases hav : (idOrder.filter
      (fun id => !(exclude.contains id))).isEmpty
  · rw [if_pos hav]
    rw [List.isEmpty_iff] at hav
    rw [singlePassScoresOrd, hav]
    simp [sortByScoreDesc]
  · rw [if_neg hav,
      flatMap_computeSimilarityBatch store pref exclude bs hbs,
      computeSimilarityBatch_eq]
    congr 1
    congr 1
    unfold getMultipleFeatureVectors singlePassScoresOrd
    rw [List.map_filterMap]
    have hfn : ∀ id : String,
        ((getRecipeFeatureVector store id).map (fun v => (id, v))).map
            (fun p => (p.1, cosineSim pref p.2)) =
          (getRecipeFeatureVector store id).map
            (fun v => (id, cosineSim pref v)) := by
      intro id
      rw [Option.map_map]
      rfl
    rw [funext hfn]
    apply List.filter_eq_self.mpr
    intro p hp
    rw [List.mem_filterMap] at hp
    obtain ⟨id, hid, hmap⟩ := hp
    rw [Option.map_eq_some'] at hmap
    obtain ⟨v, -, heq⟩ := hmap
    have hp1 : p.1 = id := by rw [← heq]
    rw [List.mem_filter] at hid
    rw [hp1]
    exact hid.2

theorem toReals_01 : RawVec.toReals [JsonNum.num 0, JsonNum.num 1] =
    [(0 : ℝ), 1] := by
  norm_num [RawVec.toReals, JsonNum.toReal]

theorem vnorm_01 : vnorm [(0 : ℝ), 1] = 1 := by
  have h : sumSq [(0 : ℝ), 1] = 1 := by norm_num [sumSq]
  rw [vnorm, h, Real.sqrt_one]

theorem vnormalize_01 : vnormalize [(0 : ℝ), 1] = [0, 1] := by
  rw [vnormalize, vnorm_01]
  norm_num

theorem getRecipeFeatureVector_c3Store_p :
    getRecipeFeatureVector c3Store "p" = some [0, 1] := by
  rw [getRecipeFeatureVector,
    show storedVec c3Store "p" = some [JsonNum.num 0, JsonNum.num 1]
      from by decide,
    Option.some_bind,
    validateNormalize_eq_some _ (by decide) (by decide), toReals_01,
    vnormalize_01]

theorem getRecipeFeatureVector_c3Store_q :
    getRecipeFeatureVector c3Store "q" = some [0, 1] := by
  rw [getRecipeFeatureVector,
    show storedVec c3Store "q" = some [JsonNum.num 0, JsonNum.num 1]
      from by decide,
    Option.some_bind,
    validateNormalize_eq_some _ (by decide) (by decide), toReals_01,
    vnormalize_01]

theorem cosineSim_ten_01 : cosineSim [(1 : ℝ), 0] [0, 1] = 0 := by
  rw [cosineSim,
    show vdot [(1 : ℝ), 0] [0, 1] = 0 from by norm_num [vdot],
    zero_div]

/-- Evaluation of the ranker on the two tied items in the given
enumeration order: the stable sort keeps the enumeration order among
ties. -/
theorem findSimilarRecipesOrd_c3_eval (a b : String)
    (ha : getRecipeFeatureVector c3Store a = some [0, 1])
    (hb : getRecipeFeatureVector c3Store b = some [0, 1]) :
    findSimilarRecipesOrd c3Store [a, b] (some [1, 0]) 2 [] 1000 =
      [(a, 0), (b, 0)] := by
  rw [findSimilarRecipesOrd_eq_sorted c3Store [a, b] [1, 0] [] 2 1000
    (by norm_num)]
  have hsp : singlePassScoresOrd c3Store [a, b] [1, 0] [] =
      [(a, cosineSim [1, 0] [0, 1]), (b, cosineSim [1, 0] [0, 1])] := by
    unfold singlePassScoresOrd
    rw [show ([a, b] : List String).filter
        (fun id => !(List.contains ([] : List String) id)) = [a, b] from
      List.filter_eq_self.mpr (fun x _ => rfl)]
    rw [List.filterMap_cons, List.filterMap_cons, List.filterMap_nil,
      ha, hb]
    rfl
  rw [hsp, cosineSim_ten_01]
  have hins : insertDesc (a, (0 : ℝ)) [(b, 0)] = [(a, 0), (b, 0)] := by
    unfold insertDesc
    have hc : ((b, (0 : ℝ)).2 ≤ (a, (0 : ℝ)).2) := le_refl 0
    rw [if_pos hc]
  rw [show sortByScoreDesc [(a, (0 : ℝ)), (b, 0)] =
      insertDesc (a, 0) (sortByScoreDesc [(b, 0)]) from rfl,
    show sortByScoreDesc [(b, (0 : ℝ))] = [(b, 0)] from rfl,
    hins]
  rfl

/-- Counterexample to C3 as stated: the code sorts only by score (a
stable sort with no secondary key), so the equal-score tie order is the
candidate enumeration order — and that enumeration is the iteration
order of a Python set (hash-salted, varying between processes).  Two
enumerations of the same two tied candidates, both permutations of the
corpus's present ids, produce the two different output orders. -/
theorem C3_tie_order_counterexample :
    (["p", "q"] : List String).Perm ["q", "p"] ∧
      (["p", "q"] : List String).Perm (Store.presentIds c3Store) ∧
      (findSimilarRecipesOrd c3Store ["p", "q"] (some [1, 0]) 2 []
          1000).map Prod.fst = ["p", "q"] ∧
      (findSimilarRecipesOrd c3Store ["q", "p"] (some [1, 0]) 2 []
          1000).map Prod.fst = ["q", "p"] ∧
      findSimilarRecipesOrd c3Store ["p", "q"] (some [1, 0]) 2 []
          1000 ≠
        findSimilarRecipesOrd c3Store ["q", "p"] (some [1, 0]) 2 []
          1000 := by
  have hpq := findSimilarRecipesOrd_c3_eval "p" "q"
    getRecipeFeatureVector_c3Store_p getRecipeFeatureVector_c3Store_q
  have hqp := findSimilarRecipesOrd_c3_eval "q" "p"
    getRecipeFeatureVector_c3Store_q getRecipeFeatureVector_c3Store_p
  refine ⟨List.Perm.swap "q" "p" [], List.Perm.refl _, ?_, ?_, ?_⟩
  · rw [hpq]
    rfl
  · rw [hqp]
    rfl
  · intro h
    rw [hpq, hqp] at h
    have hfst : ("p" : String) = "q" :=
      congrArg (fun l => (l.headD ("r", 0)).1) h
    exact absurd hfst (by decide)

/-- C3 amended — Given a fixed candidate enumeration order, the ranking
is deterministic: the output is independent of the batch size, its
scores are weakly decreasing, and the stable sort keeps equal-score
entries in enumeration order; the production function is the instance
of the order-parameterized ranker at store order.  (What the claim
asserted beyond this — a deterministic secondary tie key — the code
does not implement: see the counterexample.) -/
theorem C3_rank_deterministic_given_order_amended (store : Store)
    (idOrder : List String) (pref : List ℝ) (exclude : List String)
    (k bs₁ bs₂ : ℕ) (h₁ : 0 < bs₁) (h₂ : 0 < bs₂) :
    findSimilarRecipesOrd store idOrder (some pref) k exclude bs₁ =
        findSimilarRecipesOrd store idOrder (some pref) k exclude bs₂ ∧
      ScoresDesc (findSimilarRecipesOrd store idOrder (some pref) k
        exclude bs₁) ∧
      (∀ s : ℝ,
        (sortByScoreDesc (singlePassScoresOrd store idOrder pref
            exclude)).filter (fun p => decide (p.2 = s)) =
          (singlePassScoresOrd store idOrder pref exclude).filter
            (fun p => decide (p.2 = s))) ∧
      findSimilarRecipes store (some pref) k exclude bs₁ =
        findSimilarRecipesOrd store (Store.presentIds store) (some pref)
          k exclude bs₁ := by
  refine ⟨?_, ?_, ?_, rfl⟩
  · rw [findSimilarRecipesOrd_eq_sorted store idOrder pref exclude k
      bs₁ h₁,
      findSimilarRecipesOrd_eq_sorted store idOrder pref exclude k
      bs₂ h₂]
  · rw [findSimilarRecipesOrd_eq_sorted store idOrder pref exclude k
      bs₁ h₁]
    exact (scoresDesc_sortByScoreDesc _).sublist (List.take_sublist k _)
  · intro s
    apply filter_sortByScoreDesc
    intro a b ha hb
    rw [of_decide_eq_true ha, of_decide_eq_true hb]

/-- Witness for C3's amended theorem at a concrete corpus, the store
enumeration, two batch sizes, and the tie score `0`. -/
theorem C3_rank_deterministic_given_order_amended_witness :
    0 < 1 ∧ 0 < 1000 ∧
      findSimilarRecipesOrd demoStore (Store.presentIds demoStore)
          (some [1, 0]) 5 ["a"] 1 =
        findSimilarRecipesOrd demoStore (Store.presentIds demoStore)
          (some [1, 0]) 5 ["a"] 1000 ∧
      ScoresDesc (findSimilarRecipesOrd demoStore
        (Store.presentIds demoStore) (some [1, 0]) 5 ["a"] 1) ∧
      (sortByScoreDesc (singlePassScoresOrd demoStore
          (Store.presentIds demoStore) [1, 0] ["a"])).filter
          (fun p => decide (p.2 = 0)) =
        (singlePassScoresOrd demoStore (Store.presentIds demoStore)
          [1, 0] ["a"]).filter (fun p => decide (p.2 = 0)) ∧
      findSimilarRecipes demoStore (some [1, 0]) 5 ["a"] 1 =
        findSimilarRecipesOrd demoStore (Store.presentIds demoStore)
          (some [1, 0]) 5 ["a"] 1 :=
  ⟨by decide, by decide,
    (C3_rank_deterministic_given_order_amended demoStore
      (Store.presentIds demoStore) [1, 0] ["a"] 5 1 1000 (by decide)
      (by decide)).1,
    (C3_rank_deterministic_given_order_amended demoStore
      (Store.presentIds demoStore) [1, 0] ["a"] 5 1 1000 (by decide)
      (by decide)).2.1,
    (C3_rank_deterministic_given_order_amended demoStore
      (Store.presentIds demoStore) [1, 0] ["a"] 5 1 1000 (by decide)
      (by decide)).2.2.1 0,
    (C3_rank_deterministic_given_order_amended demoStore
      (Store.presentIds demoStore) [1, 0] ["a"] 5 1 1000 (by decide)
      (by decide)).2.2.2⟩

theorem map_congr_fun {α β : Type} (f g : α → β) (l : List α)
    (h : ∀ a, f a = g a) : l.map f = l.map g := by
  induction l with
  | nil => rfl
  | cons x xs ih => rw [List.map_cons, List.map_cons, h x, ih]

theorem any_isNone_map_some {α β : Type} (f : α → β) (l : List α) :
    ((l.map (fun a => some (f a))).any (fun r => r.isNone)) = false := by
  induction l with
  | nil => rfl
  | cons x xs ih => simp

theorem filterMap_id_map_some {α β : Type} (f : α → β) (l : List α) :
    ((l.map (fun a => some (f a))).filterMap (fun r => r)) =
      l.map f := by
  induction l with
  | nil => rfl
  | cons x xs ih =>
    rw [List.map_cons, List.map_cons, List.filterMap_cons]
    show f x :: (xs.map (fun a => some (f a))).filterMap (fun r => r) =
      f x :: xs.map f
    rw [ih]

theorem map_flatten_eq_flatMap {α β : Type} (f : α → List β)
    (l : List α) : (l.map f).flatten = l.flatMap f := by
  induction l with
  | nil => rfl
  | cons x xs ih =>
    rw [List.map_cons, List.flatten_cons, List.flatMap_cons, ih]

/-- On a batch all of whose valid vectors have the target's dimension,
the error-aware scorer raises nothing, drops nothing, and computes the
plain batch scores. -/
theorem computeSimilarityBatchE_ok (store : Store) (target : List ℝ)
    (ids exclude : List String)
    (hdim : ∀ id v, getRecipeFeatureVector store id = some v →
      v.length = target.length) :
    computeSimilarityBatchE store target ids exclude =
      some (computeSimilarityBatch store target ids exclude) := by
  have hlen : ∀ p ∈ getMultipleFeatureVectors store ids,
      (Prod.snd p).length = target.length := by
    intro p hp
    have hch := (mem_getMultipleFeatureVectors store ids p.1 p.2).mp hp
    exact hdim p.1 p.2
      ((getRecipeFeatureVector_eq_some store p.1 p.2).mpr hch.2)
  rw [computeSimilarityBatch_eq]
  unfold computeSimilarityBatchE
  by_cases he : (getMultipleFeatureVectors store ids).isEmpty
  · rw [if_pos he]
    rw [List.isEmpty_iff] at he
    rw [he, List.map_nil, List.filter_nil]
  · rw [if_neg he]
    obtain ⟨p, ps, hcons⟩ : ∃ p ps,
        getMultipleFeatureVectors store ids = p :: ps := by
      rcases hm : getMultipleFeatureVectors store ids with _ | ⟨p, ps⟩
      · rw [hm] at he
        exact absurd rfl he
      · exact ⟨p, ps, rfl⟩
    have hhead : (dimsOf (getMultipleFeatureVectors store
        ids)).headD 0 = target.length := by
      rw [hcons]
      show p.2.length = target.length
      exact hlen p (by rw [hcons]; exact List.mem_cons_self p ps)
    have huni : uniformDims
        (dimsOf (getMultipleFeatureVectors store ids)) = true := by
      unfold uniformDims
      rw [List.all_eq_true]
      intro d hd
      rw [hhead]
      unfold dimsOf at hd
      rw [List.mem_map] at hd
      obtain ⟨q, hq, hqd⟩ := hd
      rw [← hqd, hlen q hq]
      simp
    rw [if_pos huni, if_pos hhead]

/-- On a corpus all of whose valid vectors have the preference's
dimension, the error-aware ranker raises nothing and equals the plain
one. -/
theorem findSimilarRecipesE_ok (store : Store) (pref : List ℝ)
    (exclude : List String) (k bs : ℕ)
    (hdim : ∀ id v, getRecipeFeatureVector store id = some v →
      v.length = pref.length) :
    findSimilarRecipesE store (some pref) k exclude bs =
      some (findSimilarRecipes store (some pref) k exclude bs) := by
  have hE : ∀ batch : List String,
      computeSimilarityBatchE store pref batch exclude =
        some (computeSimilarityBatch store pref batch exclude) :=
    fun batch => computeSimilarityBatchE_ok store pref batch exclude
      hdim
  have hlhs : findSimilarRecipesE store (some pref) k exclude bs =
      (if (store.presentIds.filter
          (fun id => !(exclude.contains id))).isEmpty then some []
       else if ((chunksOf bs (store.presentIds.filter
           (fun id => !(exclude.contains id)))).map
           (fun batch => computeSimilarityBatchE store pref batch
             exclude)).any (fun r => r.isNone) then none
       else some ((sortByScoreDesc (((chunksOf bs
           (store.presentIds.filter
             (fun id => !(exclude.contains id)))).map
           (fun batch => computeSimilarityBatchE store pref batch
             exclude)).filterMap (fun r => r)).flatten).take k)) := rfl
  have hrhs : findSimilarRecipes store (some pref) k exclude bs =
      (if (store.presentIds.filter
          (fun id => !(exclude.contains id))).isEmpty then []
       else (sortByScoreDesc ((chunksOf bs (store.presentIds.filter
           (fun id => !(exclude.contains id)))).flatMap
           (fun batch => computeSimilarityBatch store pref batch
             exclude))).take k) := rfl
  rw [hlhs, hrhs]
  by_cases hav : (store.presentIds.filter
      (fun id => !(exclude.contains id))).isEmpty
  · rw [if_pos hav, if_pos hav]
  · rw [if_neg hav, if_neg hav]
    have hmap : (chunksOf bs (store.presentIds.filter
        (fun id => !(exclude.contains id)))).map
          (fun batch => computeSimilarityBatchE store pref batch
            exclude) =
        (chunksOf bs (store.presentIds.filter
          (fun id => !(exclude.contains id)))).map
          (fun batch =>
            some (computeSimilarityBatch store pref batch exclude)) :=
      map_congr_fun _ _ _ hE
    rw [hmap, any_isNone_map_some, if_neg (by simp),
      filterMap_id_map_some, map_flatten_eq_flatMap]

/-- C8 amended — When every valid stored vector has the preference
vector's dimension, the error-aware ranker raises nothing and equals
the plain ranking, whose output has length at most `k` and contains
exactly all scorable (valid-vector, non-excluded) candidates when
fewer than `k` exist.  (On a mixed-dimension corpus — reachable, since
the accessor performs no dimension check — the guarantee fails: see
the counterexample.) -/
theorem C8_rank_output_length_amended (store : Store) (pref : List ℝ)
    (exclude : List String) (k bs : ℕ) (hbs : 0 < bs)
    (hdim : ∀ id v, getRecipeFeatureVector store id = some v →
      v.length = pref.length) :
    findSimilarRecipesE store (some pref) k exclude bs =
        some (findSimilarRecipes store (some pref) k exclude bs) ∧
      (findSimilarRecipes store (some pref) k exclude bs).length ≤ k ∧
      (scorableCount store exclude < k →
        (findSimilarRecipes store (some pref) k exclude bs).length =
          scorableCount store exclude) := by
  refine ⟨findSimilarRecipesE_ok store pref exclude k bs hdim, ?_, ?_⟩
  · rw [length_findSimilarRecipes store pref exclude k bs hbs]
    exact min_le_left _ _
  · intro h
    rw [length_findSimilarRecipes store pref exclude k bs hbs]
    exact min_eq_right (le_of_lt h)

theorem length_toReals (raw : RawVec) :
    (RawVec.toReals raw).length = raw.length := by
  unfold RawVec.toReals
  rw [List.length_map]

theorem length_vnormalize (v : List ℝ) :
    (vnormalize v).length = v.length := by
  unfold vnormalize
  rw [List.length_map]

/-- A successful raw lookup comes from a row of the store. -/
theorem storedVec_mem (store : Store) (id : String) (raw : RawVec)
    (h : storedVec store id = some raw) : (id, some raw) ∈ store := by
  unfold storedVec Store.lookup at h
  cases hf : store.find? (fun row => row.1 = id) with
  | none =>
    rw [hf] at h
    exact Option.noConfusion h
  | some row =>
    rw [hf] at h
    obtain ⟨r1, r2⟩ := row
    have hmem := List.mem_of_find?_eq_some hf
    have hpred := List.find?_some hf
    have hid : r1 = id := by simpa using hpred
    have hsnd : r2 = some raw := by simpa using h
    rw [hid, hsnd] at hmem
    exact hmem

/-- Every vector the accessor returns on the demo corpus has dimension
2: all its stored raw vectors do. -/
theorem demoStore_dims (id : String) (v : List ℝ)
    (h : getRecipeFeatureVector demoStore id = some v) :
    v.length = 2 := by
  obtain ⟨raw, hsv, h1, h2, hv⟩ :=
    (getRecipeFeatureVector_eq_some demoStore id v).mp h
  have hmem := storedVec_mem demoStore id raw hsv
  have hlen : raw.length = 2 := by
    simp only [demoStore, List.mem_cons, List.not_mem_nil, or_false,
      Prod.mk.injEq, Option.some.injEq] at hmem
    rcases hmem with ⟨-, hr⟩ | ⟨-, hr⟩ | ⟨-, hr⟩ | ⟨-, hr⟩
    · rw [hr]
      rfl
    · rw [hr]
      rfl
    · exact Option.noConfusion hr
    · rw [hr]
      rfl
  rw [hv, length_vnormalize, length_toReals]
  exact hlen

/-- Witness for C8's amended theorem: the demo corpus is uniformly
2-dimensional, matching the preference, with exactly one scorable
candidate outside the exclusion set, fewer than `k = 5`. -/
theorem C8_rank_output_length_amended_witness :
    0 < 1000 ∧ scorableCount demoStore ["a"] < 5 ∧
      findSimilarRecipesE demoStore (some [1, 0]) 5 ["a"] 1000 =
        some (findSimilarRecipes demoStore (some [1, 0]) 5 ["a"]
          1000) ∧
      (findSimilarRecipes demoStore (some [1, 0]) 5 ["a"]
        1000).length ≤ 5 ∧
      (findSimilarRecipes demoStore (some [1, 0]) 5 ["a"]
          1000).length =
        scorableCount demoStore ["a"] := by
  have hdim : ∀ id v, getRecipeFeatureVector demoStore id = some v →
      v.length = ([(1 : ℝ), 0] : List ℝ).length := by
    intro id v h
    rw [show (([(1 : ℝ), 0] : List ℝ)).length = 2 from rfl]
    exact demoStore_dims id v h
  exact ⟨by decide, by decide,
    (C8_rank_output_length_amended demoStore [1, 0] ["a"] 5 1000
      (by decide) hdim).1,
    (C8_rank_output_length_amended demoStore [1, 0] ["a"] 5 1000
      (by decide) hdim).2.1,
    (C8_rank_output_length_amended demoStore [1, 0] ["a"] 5 1000
      (by decide) hdim).2.2 (by decide)⟩

/-! ### Concrete evaluations used by witnesses -/

theorem toReals_ten : RawVec.toReals [JsonNum.num 1, JsonNum.num 0] =
    [(1 : ℝ), 0] := by
  norm_num [RawVec.toReals, JsonNum.toReal]

theorem vnorm_ten : vnorm [(1 : ℝ), 0] = 1 := by
  have h : sumSq [(1 : ℝ), 0] = 1 := by norm_num [sumSq]
  rw [vnorm, h, Real.sqrt_one]

theorem vnormalize_ten : vnormalize [(1 : ℝ), 0] = [1, 0] := by
  rw [vnormalize, vnorm_ten]
  norm_num

theorem getRecipeFeatureVector_demo_a :
    getRecipeFeatureVector demoStore "a" = some [1, 0] := by
  rw [getRecipeFeatureVector,
    show storedVec demoStore "a" = some [JsonNum.num 1, JsonNum.num 0]
      from by decide,
    Option.some_bind,
    validateNormalize_eq_some _ (by decide) (by decide), toReals_ten,
    vnormalize_ten]

/-- C10 — Every vector returned by the vector store accessor (single or
bulk lookup) is the stored vector divided by its Euclidean norm, hence
unit-normalized, so the preference aggregation and similarity scoring
operate on unit vectors from the store. -/
theorem C10_accessor_returns_unit_vectors (store : Store) (id : String)
    (v : List ℝ) :
    (getRecipeFeatureVector store id = some v →
      (∃ raw, storedVec store id = some raw ∧
        v = vnormalize raw.toReals) ∧ vnorm v = 1) ∧
    (∀ ids : List String,
      (id, v) ∈ getMultipleFeatureVectors store ids → vnorm v = 1) := by
  constructor
  · intro h
    obtain ⟨raw, hlk, h1, h2, hv⟩ :=
      (getRecipeFeatureVector_eq_some store id v).mp h
    refine ⟨⟨raw, hlk, hv⟩, ?_⟩
    rw [hv]
    exact vnorm_normalize _ (ne_of_gt (vnorm_pos_of_valid raw h1 h2))
  · intro ids h
    exact getMultipleFeatureVectors_unit store ids id v h

/-- Witness for C10 at a concrete store: the stored vector `[1, 0]` is
returned as its own normalization, with norm 1. -/
theorem C10_accessor_returns_unit_vectors_witness :
    getRecipeFeatureVector demoStore "a" = some [1, 0] ∧
      vnorm [(1 : ℝ), 0] = 1 ∧
      ("a", [(1 : ℝ), 0]) ∈ getMultipleFeatureVectors demoStore ["a"] ∧
      vnorm [(1 : ℝ), 0] = 1 :=
  ⟨getRecipeFeatureVector_demo_a,
    ((C10_accessor_returns_unit_vectors demoStore "a" [1, 0]).1
      getRecipeFeatureVector_demo_a).2,
    List.mem_filterMap.mpr ⟨"a", by decide,
      by rw [getRecipeFeatureVector_demo_a]; rfl⟩,
    (C10_accessor_returns_unit_vectors demoStore "a" [1, 0]).2 ["a"]
      (List.mem_filterMap.mpr ⟨"a", by decide,
        by rw [getRecipeFeatureVector_demo_a]; rfl⟩)⟩

theorem toReals_one : RawVec.toReals [JsonNum.num 1] = [(1 : ℝ)] := by
  norm_num [RawVec.toReals, JsonNum.toReal]

theorem vnorm_one : vnorm [(1 : ℝ)] = 1 := by
  have h : sumSq [(1 : ℝ)] = 1 := by norm_num [sumSq]
  rw [vnorm, h, Real.sqrt_one]

theorem vnormalize_one : vnormalize [(1 : ℝ)] = [1] := by
  rw [vnormalize, vnorm_one]
  norm_num

theorem getRecipeFeatureVector_dimStore_a :
    getRecipeFeatureVector dimStore "a" = some [1, 0] := by
  rw [getRecipeFeatureVector,
    show storedVec dimStore "a" = some [JsonNum.num 1, JsonNum.num 0]
      from by decide,
    Option.some_bind,
    validateNormalize_eq_some _ (by decide) (by decide), toReals_ten,
    vnormalize_ten]

theorem getRecipeFeatureVector_dimStore_b :
    getRecipeFeatureVector dimStore "b" = some [1] := by
  rw [getRecipeFeatureVector,
    show storedVec dimStore "b" = some [JsonNum.num 1] from by decide,
    Option.some_bind,
    validateNormalize_eq_some _ (by decide) (by decide), toReals_one,
    vnormalize_one]

theorem getMultipleFeatureVectors_dim_ab :
    getMultipleFeatureVectors dimStore ["a", "b"] =
      [("a", [1, 0]), ("b", [1])] := by
  unfold getMultipleFeatureVectors
  rw [List.filterMap_cons, List.filterMap_cons, List.filterMap_nil,
    getRecipeFeatureVector_dimStore_a,
    getRecipeFeatureVector_dimStore_b]
  rfl

theorem getMultipleFeatureVectors_dim_a :
    getMultipleFeatureVectors dimStore ["a"] = [("a", [1, 0])] := by
  unfold getMultipleFeatureVectors
  rw [List.filterMap_cons, List.filterMap_nil,
    getRecipeFeatureVector_dimStore_a]
  rfl

theorem getMultipleFeatureVectors_dim_b :
    getMultipleFeatureVectors dimStore ["b"] = [("b", [1])] := by
  unfold getMultipleFeatureVectors
  rw [List.filterMap_cons, List.filterMap_nil,
    getRecipeFeatureVector_dimStore_b]
  rfl

theorem cosineSim_ten_ten : cosineSim [(1 : ℝ), 0] [1, 0] = 1 := by
  rw [cosineSim,
    show vdot [(1 : ℝ), 0] [1, 0] = 1 from by norm_num [vdot],
    vnorm_ten]
  norm_num

/-- A single batch holding both dimensions is ragged: the uncaught
raise. -/
theorem computeSimilarityBatchE_dim_ab :
    computeSimilarityBatchE dimStore [1, 0] ["a", "b"] [] = none := by
  unfold computeSimilarityBatchE
  rw [getMultipleFeatureVectors_dim_ab]
  rfl

theorem computeSimilarityBatchE_dim_a :
    computeSimilarityBatchE dimStore [1, 0] ["a"] [] =
      some [("a", cosineSim [1, 0] [1, 0])] := by
  unfold computeSimilarityBatchE
  rw [getMultipleFeatureVectors_dim_a]
  rfl

/-- A uniform batch whose dimension misses the target's: the caught
raise that discards the batch. -/
theorem computeSimilarityBatchE_dim_b :
    computeSimilarityBatchE dimStore [1, 0] ["b"] [] = some [] := by
  unfold computeSimilarityBatchE
  rw [getMultipleFeatureVectors_dim_b]
  rfl

theorem findSimilarRecipesE_dim_1000 :
    findSimilarRecipesE dimStore (some [1, 0]) 3 [] 1000 = none := by
  have hchunks : chunksOf 1000 (["a", "b"] : List String) =
      [["a", "b"]] := by
    rw [chunksOf,
      show (["b"] : List String).drop (1000 - 1) = [] from
        List.drop_eq_nil_of_le (by norm_num),
      chunksOf]
    rfl
  have hlhs : findSimilarRecipesE dimStore (some [1, 0]) 3 [] 1000 =
      (if ((chunksOf 1000 (["a", "b"] : List String)).map
          (fun batch =>
            computeSimilarityBatchE dimStore [1, 0] batch [])).any
          (fun r => r.isNone) then none
       else some ((sortByScoreDesc (((chunksOf 1000
           (["a", "b"] : List String)).map
           (fun batch => computeSimilarityBatchE dimStore [1, 0] batch
             [])).filterMap (fun r => r)).flatten).take 3)) := rfl
  rw [hlhs, hchunks, List.map_cons, List.map_nil,
    computeSimilarityBatchE_dim_ab]
  rfl

theorem findSimilarRecipesE_dim_1 :
    findSimilarRecipesE dimStore (some [1, 0]) 3 [] 1 =
      some [("a", cosineSim [1, 0] [1, 0])] := by
  have hchunks : chunksOf 1 (["a", "b"] : List String) =
      [["a"], ["b"]] := by
    rw [chunksOf,
      show (["b"] : List String).drop (1 - 1) = ["b"] from rfl,
      chunksOf,
      show ([] : List String).drop (1 - 1) = [] from rfl,
      chunksOf]
    rfl
  have hlhs : findSimilarRecipesE dimStore (some [1, 0]) 3 [] 1 =
      (if ((chunksOf 1 (["a", "b"] : List String)).map
          (fun batch =>
            computeSimilarityBatchE dimStore [1, 0] batch [])).any
          (fun r => r.isNone) then none
       else some ((sortByScoreDesc (((chunksOf 1
           (["a", "b"] : List String)).map
           (fun batch => computeSimilarityBatchE dimStore [1, 0] batch
             [])).filterMap (fun r => r)).flatten).take 3)) := rfl
  rw [hlhs, hchunks, List.map_cons, List.map_cons, List.map_nil,
    computeSimilarityBatchE_dim_a, computeSimilarityBatchE_dim_b]
  rfl

/-- Counterexample to C8 as stated: the claim promises, for every
corpus, an output holding exactly all scorable candidates (when fewer
than `k`) with no error — but on a corpus mixing a 2-dimensional and a
1-dimensional valid vector (reachable, since the accessor performs no
dimension check), the call errors at batch size 1000 (a ragged
`np.array` raises before the `try` and propagates), and at batch size 1
it silently returns only 1 of the 2 scorable candidates (the
mismatched batch's caught `ValueError` discards it). -/
theorem C8_dimension_error_counterexample :
    scorableCount dimStore [] = 2 ∧ scorableCount dimStore [] < 3 ∧
      findSimilarRecipesE dimStore (some [1, 0]) 3 [] 1000 = none ∧
      findSimilarRecipesE dimStore (some [1, 0]) 3 [] 1 =
        some [("a", 1)] ∧
      ([(("a" : String), (1 : ℝ))] : List (String × ℝ)).length ≠
        scorableCount dimStore [] := by
  refine ⟨by decide, by decide, findSimilarRecipesE_dim_1000, ?_,
    by decide⟩
  rw [findSimilarRecipesE_dim_1, cosineSim_ten_ten]

/-- Counterexample to C9 as stated: the bulk accessor performs no
dimension check, so it returns vectors of two different dimensions from
the same corpus — whatever the corpus dimension `D` is, one of them is
wrong yet not dropped. -/
theorem C9_no_dimension_check_counterexample :
    ("a", [(1 : ℝ), 0]) ∈ getMultipleFeatureVectors dimStore ["a", "b"] ∧
    ("b", [(1 : ℝ)]) ∈ getMultipleFeatureVectors dimStore ["a", "b"] ∧
    ¬ ∃ D : ℕ, ∀ p ∈ getMultipleFeatureVectors dimStore ["a", "b"],
        (Prod.snd p).length = D := by
  have ha : ("a", [(1 : ℝ), 0]) ∈
      getMultipleFeatureVectors dimStore ["a", "b"] := by
    rw [mem_getMultipleFeatureVectors]
    exact ⟨by decide, [JsonNum.num 1, JsonNum.num 0], by decide, by decide,
      by decide, by rw [toReals_ten, vnormalize_ten]⟩
  have hb : ("b", [(1 : ℝ)]) ∈
      getMultipleFeatureVectors dimStore ["a", "b"] := by
    rw [mem_getMultipleFeatureVectors]
    exact ⟨by decide, [JsonNum.num 1], by decide, by decide,
      by decide, by rw [toReals_one, vnormalize_one]⟩
  refine ⟨ha, hb, ?_⟩
  rintro ⟨D, hD⟩
  have h2 := hD _ ha
  have h1 := hD _ hb
  simp at h1 h2
  omega

/-- C9 amended — For every list of requested ids, the bulk vector
lookup returns exactly the requested ids whose stored vector is present,
contains no non-finite entry, and is not all-zero (each returned as the
unit normalization of the stored vector); missing or invalid ids are
simply absent, and no request fails.  No dimension check is performed:
mismatched-dimension vectors are returned like any others. -/
theorem C9_get_many_amended (store : Store) (ids : List String)
    (id : String) (v : List ℝ) :
    (id, v) ∈ getMultipleFeatureVectors store ids ↔
      id ∈ ids ∧ ∃ raw, storedVec store id = some raw ∧
        raw.anyNonFinite = false ∧ raw.allZero = false ∧
        v = vnormalize raw.toReals :=
  mem_getMultipleFeatureVectors store ids id v

/-! ## Preference Aggregator
(`RecommendationEngine.compute_user_preference_vector` in
`src/api/recommendation_engine.py`, and
`ElasticsearchService._create_user_preference_vector` in
`src/api/es_service.py`) -/

theorem vadd_assoc (u v w : List ℝ) :
    vadd (vadd u v) w = vadd u (vadd v w) := by
  induction u generalizing v w with
  | nil => simp [vadd]
  | cons x xs ih =>
    cases v with
    | nil => simp [vadd]
    | cons y ys =>
      cases w with
      | nil => simp [vadd]
      | cons z zs =>
        simp only [vadd, List.zipWith_cons_cons] at *
        rw [add_assoc]
        exact congrArg _ (ih ys zs)

theorem vscale_vadd (c : ℝ) (u v : List ℝ) :
    vscale c (vadd u v) = vadd (vscale c u) (vscale c v) := by
  induction u generalizing v with
  | nil => simp [vadd, vscale]
  | cons x xs ih =>
    cases v with
    | nil => simp [vadd, vscale]
    | cons y ys =>
      simp only [vadd, vscale, List.zipWith_cons_cons, List.map_cons] at *
      rw [mul_add]
      exact congrArg _ (ih ys)

theorem foldl_vadd_vadd (a b : List ℝ) (l : List (List ℝ)) :
    l.foldl vadd (vadd a b) = vadd a (l.foldl vadd b) := by
  induction l generalizing b with
  | nil => rfl
  | cons h t ih =>
    rw [List.foldl_cons, List.foldl_cons, vadd_assoc, ih]

theorem optAdd_none_right (a : Option (List ℝ)) : optAdd a none = a := by
  cases a <;> rfl

theorem optAdd_assoc (a b c : Option (List ℝ)) :
    optAdd (optAdd a b) c = optAdd a (optAdd b c) := by
  cases a <;> cases b <;> cases c <;> simp [optAdd, vadd_assoc]

/-- The accumulation loop computes the weighted sum of the ids' fetched
vectors, combined onto the incoming accumulator. -/
theorem foldl_accumWeighted (fvs : List (String × List ℝ)) (w : ℝ)
    (ids : List String) (acc : Option (List ℝ)) :
    ids.foldl (accumWeighted fvs w) acc =
      optAdd acc
        ((vsumOpt (ids.filterMap (fvLookup fvs))).map (vscale w)) := by
  induction ids generalizing acc with
  | nil =>
    rw [List.foldl_nil, List.filterMap_nil]
    exact (optAdd_none_right acc).symm
  | cons id ids ih =>
    rw [List.foldl_cons, List.filterMap_cons]
    cases hl : fvLookup fvs id with
    | none =>
      rw [ih]
      have : accumWeighted fvs w acc id = acc := by
        rw [accumWeighted, hl]
      rw [this]
    | some v =>
      have hstep : accumWeighted fvs w acc id =
          optAdd acc (some (vscale w v)) := by
        rw [accumWeighted, hl]
        cases acc <;> rfl
      rw [ih, hstep, optAdd_assoc]
      congr 1
      cases hrest : ids.filterMap (fvLookup fvs) with
      | nil => rfl
      | cons h t =>
        show optAdd (some (vscale w v))
            (some (vscale w (t.foldl vadd h))) =
          some (vscale w (t.foldl vadd (vadd v h)))
        rw [foldl_vadd_vadd, vscale_vadd]
        rfl

/-- The loop-accumulated preference equals the weighted-sum
combination: the implementation computes sums, not means. -/
theorem computeUserPreferenceVector_eq_specSum (store : Store)
    (liked disliked : List String) (lw dw : ℝ) :
    computeUserPreferenceVector store liked disliked lw dw =
      specSumAggregate store liked disliked lw dw := by
  unfold computeUserPreferenceVector specSumAggregate
  rw [foldl_accumWeighted, foldl_accumWeighted]
  rfl

/-- Any vector the aggregator returns is unit-normalized. -/
theorem computeUserPreferenceVector_unit (store : Store)
    (liked disliked : List String) (lw dw : ℝ) (v : List ℝ)
    (h : computeUserPreferenceVector store liked disliked lw dw = some v) :
    vnorm v = 1 := by
  unfold computeUserPreferenceVector at h
  by_cases hc : liked.isEmpty && disliked.isEmpty
  · rw [if_pos hc] at h; cases h
  · rw [if_neg hc] at h
    by_cases hf :
        (getMultipleFeatureVectors store (liked ++ disliked)).isEmpty
    · rw [if_pos hf] at h; cases h
    · rw [if_neg hf] at h
      cases hfold : disliked.foldl
          (accumWeighted
            (getMultipleFeatureVectors store (liked ++ disliked)) dw)
          (liked.foldl
            (accumWeighted
              (getMultipleFeatureVectors store (liked ++ disliked)) lw)
            none) with
      | none => rw [hfold] at h; cases h
      | some p =>
        rw [hfold] at h
        have h' : (if 0 < vnorm p then some (vnormalize p) else none) =
            some v := h
        by_cases hn : 0 < vnorm p
        · rw [if_pos hn] at h'
          cases h'
          exact vnorm_normalize p (ne_of_gt hn)
        · rw [if_neg hn] at h'; cases h'

theorem getRecipeFeatureVector_c2Store (id : String) (hid : id ∈
    (["a", "b", "c"] : List String)) :
    getRecipeFeatureVector c2Store id = some [1] := by
  have hsv : storedVec c2Store id = some [JsonNum.num 1] := by
    simp only [List.mem_cons, List.not_mem_nil, or_false] at hid
    rcases hid with h | h | h
    · rw [h]; decide
    · rw [h]; decide
    · rw [h]; decide
  rw [getRecipeFeatureVector, hsv, Option.some_bind,
    validateNormalize_eq_some _ (by decide) (by decide), toReals_one,
    vnormalize_one]

theorem getMultipleFeatureVectors_c2Store :
    getMultipleFeatureVectors c2Store ["a", "b", "c"] =
      [("a", [1]), ("b", [1]), ("c", [1])] := by
  unfold getMultipleFeatureVectors
  rw [List.filterMap_cons, List.filterMap_cons, List.filterMap_cons,
    List.filterMap_nil,
    getRecipeFeatureVector_c2Store "a" (by decide),
    getRecipeFeatureVector_c2Store "b" (by decide),
    getRecipeFeatureVector_c2Store "c" (by decide)]
  rfl

theorem fvLookup_cons_self (id : String) (v : List ℝ)
    (rest : List (String × List ℝ)) :
    fvLookup ((id, v) :: rest) id = some v := by
  rw [fvLookup, List.find?_cons_of_pos]
  · rfl
  · simp

theorem fvLookup_cons_ne (id id' : String) (v : List ℝ)
    (rest : List (String × List ℝ)) (h : id' ≠ id) :
    fvLookup ((id', v) :: rest) id = fvLookup rest id := by
  rw [fvLookup, List.find?_cons_of_neg]
  · rfl
  · simp [h]

theorem vnorm_zero_single : vnorm [(0 : ℝ)] = 0 := by
  have h : sumSq [(0 : ℝ)] = 0 := by norm_num [sumSq]
  rw [vnorm, h, Real.sqrt_zero]

/-- Evaluation: one like and two dislikes of the same unit vector, at
the default weights `1` and `-1/2`, cancel exactly under the sum-based
accumulation, so the implementation returns `None`. -/
theorem computeUser_c2_cancel :
    computeUserPreferenceVector c2Store ["a"] ["b", "c"] 1 (-1/2) =
      none := by
  have hfvs : getMultipleFeatureVectors c2Store (["a"] ++ ["b", "c"]) =
      [("a", [1]), ("b", [1]), ("c", [1])] :=
    getMultipleFeatureVectors_c2Store
  have hs1 : vscale 1 [(1 : ℝ)] = [1] := by norm_num [vscale]
  have ha : accumWeighted [("a", [(1 : ℝ)]), ("b", [1]), ("c", [1])] 1
      none "a" = some [1] := by
    rw [accumWeighted, fvLookup_cons_self]
    show some (vscale 1 [(1 : ℝ)]) = some [1]
    rw [hs1]
  have hb : accumWeighted [("a", [(1 : ℝ)]), ("b", [1]), ("c", [1])]
      (-1/2) (some [1]) "b" = some [1/2] := by
    rw [accumWeighted, fvLookup_cons_ne _ _ _ _ (by decide),
      fvLookup_cons_self]
    show some (vadd [(1 : ℝ)] (vscale (-1/2) [1])) = some [1/2]
    have h : vadd [(1 : ℝ)] (vscale (-1/2) [1]) = [1/2] := by
      norm_num [vadd, vscale]
    rw [h]
  have hc : accumWeighted [("a", [(1 : ℝ)]), ("b", [1]), ("c", [1])]
      (-1/2) (some [1/2]) "c" = some [0] := by
    rw [accumWeighted, fvLookup_cons_ne _ _ _ _ (by decide),
      fvLookup_cons_ne _ _ _ _ (by decide), fvLookup_cons_self]
    show some (vadd [(1 / 2 : ℝ)] (vscale (-1/2) [1])) = some [0]
    have h : vadd [(1 / 2 : ℝ)] (vscale (-1/2) [1]) = [0] := by
      norm_num [vadd, vscale]
    rw [h]
  have hliked : List.foldl
      (accumWeighted [("a", [(1 : ℝ)]), ("b", [1]), ("c", [1])] 1) none
      ["a"] = some [1] := by
    rw [List.foldl_cons, List.foldl_nil]
    exact ha
  have hdisliked : List.foldl
      (accumWeighted [("a", [(1 : ℝ)]), ("b", [1]), ("c", [1])] (-1/2))
      (some [1]) ["b", "c"] = some [0] := by
    rw [List.foldl_cons, hb, List.foldl_cons, hc, List.foldl_nil]
  unfold computeUserPreferenceVector
  rw [hfvs,
    if_neg (by decide :
      ¬ ((["a"] : List String).isEmpty &&
        (["b", "c"] : List String).isEmpty) = true),
    if_neg (by decide :
      ¬ ([("a", [(1 : ℝ)]), ("b", [1]), ("c", [1])] :
        List (String × List ℝ)).isEmpty = true),
    hliked, hdisliked]
  rw [show (match some [(0 : ℝ)] with
    | none => none
    | some p => if 0 < vnorm p then some (vnormalize p) else none) =
      (if 0 < vnorm [(0 : ℝ)] then some (vnormalize [(0 : ℝ)])
       else none) from rfl]
  rw [vnorm_zero_single, if_neg (lt_irrefl 0)]

theorem vnorm_half_single : vnorm [(1 / 2 : ℝ)] = 1 / 2 := by
  have h : sumSq [(1 / 2 : ℝ)] = (1 / 2) ^ 2 := by norm_num [sumSq]
  rw [vnorm, h, Real.sqrt_sq (by norm_num : (0 : ℝ) ≤ 1 / 2)]

/-- Evaluation: at the same input the claim's mean-based formula yields
the unit vector `[1]` (mean of the dislikes halves their pull). -/
theorem specMean_c2_value :
    specMeanAggregate c2Store ["a"] ["b", "c"] 1 (-1/2) = some [1] := by
  have hla : (["a"] : List String).filterMap
      (getRecipeFeatureVector c2Store) = [[1]] := by
    rw [List.filterMap_cons, List.filterMap_nil,
      getRecipeFeatureVector_c2Store "a" (by decide)]
  have hld : (["b", "c"] : List String).filterMap
      (getRecipeFeatureVector c2Store) = [[1], [1]] := by
    rw [List.filterMap_cons, List.filterMap_cons, List.filterMap_nil,
      getRecipeFeatureVector_c2Store "b" (by decide),
      getRecipeFeatureVector_c2Store "c" (by decide)]
  have hml : (vmeanOpt [[(1 : ℝ)]]).map (vscale 1) = some [1] := by
    rw [vmeanOpt]
    rw [show vsumOpt [[(1 : ℝ)]] = some [1] from rfl]
    rw [Option.map_some', Option.map_some']
    have h1 : vscale (1 / (([[(1 : ℝ)]] : List (List ℝ)).length : ℝ)) [1] =
        [1] := by
      norm_num [vscale]
    rw [h1]
    norm_num [vscale]
  have hmd : (vmeanOpt [[(1 : ℝ)], [1]]).map (vscale (-1/2)) =
      some [-1/2] := by
    rw [vmeanOpt]
    rw [show vsumOpt [[(1 : ℝ)], [1]] = some (vadd [1] [1]) from rfl]
    have hsum : vadd [(1 : ℝ)] [1] = [2] := by norm_num [vadd]
    rw [hsum, Option.map_some', Option.map_some']
    have h2 : vscale (1 / (([[(1 : ℝ)], [1]] : List (List ℝ)).length : ℝ))
        [2] = [1] := by
      norm_num [vscale]
    rw [h2]
    norm_num [vscale]
  unfold specMeanAggregate
  rw [hla, hld,
    if_neg (by decide :
      ¬ (([[(1 : ℝ)]] : List (List ℝ)).isEmpty &&
        ([[(1 : ℝ)], [1]] : List (List ℝ)).isEmpty) = true),
    hml, hmd]
  have hcomb : optAdd (some [(1 : ℝ)]) (some [-1/2]) = some [1/2] := by
    rw [optAdd]
    have : vadd [(1 : ℝ)] [-1/2] = [1/2] := by norm_num [vadd]
    rw [this]
  rw [hcomb]
  rw [show (match some [(1 / 2 : ℝ)] with
    | none => none
    | some p => if 0 < vnorm p then some (vnormalize p) else none) =
      (if 0 < vnorm [(1 / 2 : ℝ)] then some (vnormalize [(1 / 2 : ℝ)])
       else none) from rfl]
  rw [vnorm_half_single, if_pos (by norm_num : (0 : ℝ) < 1 / 2)]
  have : vnormalize [(1 / 2 : ℝ)] = [1] := by
    rw [vnormalize, vnorm_half_single]
    norm_num
  rw [this]

/-- Counterexample to C2 as stated: with one liked and two disliked
copies of the same valid unit vector, at the default weights, the
implementation's sum-based accumulation cancels exactly and returns
`None`, while the claim's mean-based formula returns the unit vector
`[1]`.  The aggregation is sum-based, not mean-based. -/
theorem C2_mean_aggregation_counterexample :
    computeUserPreferenceVector c2Store ["a"] ["b", "c"] 1 (-1/2) =
        none ∧
      specMeanAggregate c2Store ["a"] ["b", "c"] 1 (-1/2) = some [1] ∧
      computeUserPreferenceVector c2Store ["a"] ["b", "c"] 1 (-1/2) ≠
        specMeanAggregate c2Store ["a"] ["b", "c"] 1 (-1/2) := by
  refine ⟨computeUser_c2_cancel, specMean_c2_value, ?_⟩
  rw [computeUser_c2_cancel, specMean_c2_value]
  exact fun h => Option.noConfusion h

/-- Evaluation for the C2 witness: a single like of a valid unit vector
aggregates to that unit vector. -/
theorem computeUser_c2_single :
    computeUserPreferenceVector c2Store ["a"] [] 1 (-1/2) = some [1] := by
  have hfvs : getMultipleFeatureVectors c2Store (["a"] ++ []) =
      [("a", [1])] := by
    rw [show ((["a"] ++ [] : List String)) = ["a"] from rfl]
    unfold getMultipleFeatureVectors
    rw [List.filterMap_cons, List.filterMap_nil,
      getRecipeFeatureVector_c2Store "a" (by decide)]
    rfl
  have ha : accumWeighted [("a", [(1 : ℝ)])] 1 none "a" = some [1] := by
    rw [accumWeighted, fvLookup_cons_self]
    show some (vscale 1 [(1 : ℝ)]) = some [1]
    norm_num [vscale]
  have hliked : List.foldl (accumWeighted [("a", [(1 : ℝ)])] 1) none
      ["a"] = some [1] := by
    rw [List.foldl_cons, List.foldl_nil]
    exact ha
  unfold computeUserPreferenceVector
  rw [hfvs,
    if_neg (by decide :
      ¬ ((["a"] : List String).isEmpty && ([] : List String).isEmpty) =
        true),
    if_neg (by decide :
      ¬ ([("a", [(1 : ℝ)])] : List (String × List ℝ)).isEmpty = true),
    hliked, List.foldl_nil]
  rw [show (match some [(1 : ℝ)] with
    | none => none
    | some p => if 0 < vnorm p then some (vnormalize p) else none) =
      (if 0 < vnorm [(1 : ℝ)] then some (vnormalize [(1 : ℝ)])
       else none) from rfl]
  rw [vnorm_one, if_pos (by norm_num : (0 : ℝ) < 1), vnormalize_one]

/-- C2 amended — The aggregation returns `none` when both feedback
lists are empty (or no feedback id has a valid vector); otherwise it
returns the unit normalization of `like_weight * sum(liked vectors) +
dislike_weight * sum(disliked vectors)` — sums, not means — with an
empty list's term omitted and `none` on a zero-norm combination, so
every returned vector is unit-norm.  The `es_service` variant instead
never returns `none` on non-empty input: on exact cancellation it
returns the unnormalized (zero) vector. -/
theorem C2_sum_aggregation_amended (store : Store)
    (liked disliked : List String) (lw dw : ℝ) :
    computeUserPreferenceVector store liked disliked lw dw =
        specSumAggregate store liked disliked lw dw ∧
      (liked = [] → disliked = [] →
        computeUserPreferenceVector store liked disliked lw dw = none) ∧
      (∀ v, computeUserPreferenceVector store liked disliked lw dw =
        some v → vnorm v = 1) ∧
      (∀ (lfv dfv : List (String × List ℝ)) (lw' dw' : ℝ),
        (lfv.isEmpty && dfv.isEmpty) = false →
        esCreateUserPreferenceVector lfv dfv lw' dw' ≠ none) := by
  refine ⟨computeUserPreferenceVector_eq_specSum store liked disliked
    lw dw, ?_, computeUserPreferenceVector_unit store liked disliked
    lw dw, ?_⟩
  · intro hl hd
    rw [hl, hd]
    rfl
  · intro lfv dfv lw' dw' hne hcontra
    unfold esCreateUserPreferenceVector at hcontra
    rw [if_neg (by simp [hne])] at hcontra
    by_cases h : 0 < vnorm (esCombination lfv dfv lw' dw')
    · rw [if_pos h] at hcontra
      cases hcontra
    · rw [if_neg h] at hcontra
      cases hcontra

/-- Witness for C2's amended theorem at a concrete input whose
aggregate succeeds. -/
theorem C2_sum_aggregation_amended_witness :
    computeUserPreferenceVector c2Store ["a"] [] 1 (-1/2) = some [1] ∧
      vnorm [(1 : ℝ)] = 1 ∧
      (([("x", [(1 : ℝ)])] : List (String × List ℝ)).isEmpty &&
        ([] : List (String × List ℝ)).isEmpty) = false ∧
      esCreateUserPreferenceVector [("x", [(1 : ℝ)])] [] 1 (-1/2) ≠
        none :=
  ⟨computeUser_c2_single,
    (C2_sum_aggregation_amended c2Store ["a"] [] 1 (-1/2)).2.2.1 [1]
      computeUser_c2_single,
    rfl,
    (C2_sum_aggregation_amended c2Store ["a"] [] 1 (-1/2)).2.2.2
      [("x", [(1 : ℝ)])] [] 1 (-1/2) rfl⟩

/-! ## In-memory engine (`src/api/rec_engine.py`)

`RecommendationEngine.__init__` loads every row of
`db.get_all_feature_vectors()` whose JSON value parses to a list — with
NO validity check: zero vectors are kept in the feature matrix (the
real-valued idealisation of a non-finite entry is immaterial here: no
theorem below depends on a score computed from one).  `random.sample`
is modelled as an injected `sample` function, per the spec's design
note on isolating randomness. -/

/-- Counterexample to C5 as stated: a user whose only feedback id has
no stored vector gets an empty list — not the random fallback — from a
nonempty corpus. -/
theorem C5_empty_result_counterexample :
    recEngineGenerate demoStore ["x"] [] [] 10 1 (-1/2)
        (fun l n => l.take n) = [] ∧
      demoStore ≠ [] ∧ Store.presentIds demoStore ≠ [] := by
  refine ⟨?_, by decide, by decide⟩
  have hlk : recVecLookup demoStore "x" = none := by
    rw [recVecLookup,
      show (recVectors demoStore).find? (fun p => p.1 = "x") = none
        from rfl]
    rfl
  have hlv : (["x"] : List String).filterMap (recVecLookup demoStore) =
      [] := by
    rw [List.filterMap_cons, hlk, List.filterMap_nil]
  have hdv : ([] : List String).filterMap (recVecLookup demoStore) =
      [] := rfl
  have hmat : (recVectors demoStore).isEmpty = false := rfl
  unfold recEngineGenerate
  rw [if_neg (by rw [hmat]; simp), if_neg (by decide), hlv, hdv]
  rfl

theorem recVecLookup_demoStore_x : recVecLookup demoStore "x" = none := by
  rw [recVecLookup,
    show (recVectors demoStore).find? (fun p => p.1 = "x") = none
      from rfl]
  rfl

theorem length_recVectors (corpus : Store) :
    (recVectors corpus).length = (Store.presentIds corpus).length := by
  unfold recVectors Store.presentIds
  rw [length_filterMap_eq_length_filter, List.length_map]
  congr 1
  apply List.filter_congr
  intro row _
  cases row.2 <;> rfl

/-- C5 amended — `generate_recommendations` is total and never raises;
a no-feedback user falls back to a random sample of `min(k, n)` loaded
ids (nonempty whenever the corpus loaded at least one vector row and
`k ≥ 1`); but contrary to the claim, feedback whose ids all miss the
feature matrix produces an empty list, not the random fallback, so the
result can be empty while the corpus is nonempty. -/
theorem C5_degraded_fallback_amended (corpus : Store)
    (liked disliked prev : List String) (k : ℕ) (lw dw : ℝ)
    (sample : List String → ℕ → List String)
    (hmat : (recVectors corpus).isEmpty = false) :
    (liked = [] → disliked = [] →
      recEngineGenerate corpus liked disliked prev k lw dw sample =
        sample (Store.presentIds corpus)
          (min k (Store.presentIds corpus).length)) ∧
      (liked = [] → disliked = [] → 1 ≤ k →
        (∀ n, n ≤ (Store.presentIds corpus).length →
          (sample (Store.presentIds corpus) n).length = n) →
        recEngineGenerate corpus liked disliked prev k lw dw sample ≠
          []) ∧
      ((liked.isEmpty && disliked.isEmpty) = false →
        (∀ id ∈ liked, recVecLookup corpus id = none) →
        (∀ id ∈ disliked, recVecLookup corpus id = none) →
        recEngineGenerate corpus liked disliked prev k lw dw sample =
          []) := by
  have hcold : ∀ (h1 : liked = []) (h2 : disliked = []),
      recEngineGenerate corpus liked disliked prev k lw dw sample =
        sample (Store.presentIds corpus)
          (min k (Store.presentIds corpus).length) := by
    intro h1 h2
    subst h1; subst h2
    unfold recEngineGenerate
    rw [if_neg (by rw [hmat]; simp), if_pos (by decide)]
  refine ⟨hcold, ?_, ?_⟩
  · intro h1 h2 hk hlen hempty
    rw [hcold h1 h2] at hempty
    have hpos : 1 ≤ (Store.presentIds corpus).length := by
      rw [← length_recVectors]
      rcases hv : recVectors corpus with _ | ⟨p, ps⟩
      · rw [hv] at hmat
        cases hmat
      · simp
    have := hlen (min k (Store.presentIds corpus).length)
      (min_le_right _ _)
    rw [hempty] at this
    simp only [List.length_nil] at this
    omega
  · intro hne hl hd
    unfold recEngineGenerate
    rw [if_neg (by rw [hmat]; simp), if_neg (by rw [hne]; simp),
      List.filterMap_eq_nil_iff.mpr hl, List.filterMap_eq_nil_iff.mpr hd]
    rfl

/-- Witness for C5's amended theorem: feedback on an unknown id yields
the empty list on the demo corpus. -/
theorem C5_degraded_fallback_amended_witness :
    (recVectors demoStore).isEmpty = false ∧
      ((["x"] : List String).isEmpty && ([] : List String).isEmpty) =
        false ∧
      recEngineGenerate demoStore ["x"] [] [] 10 1 (-1/2)
        (fun l n => l.take n) = [] := by
  refine ⟨rfl, by decide, ?_⟩
  exact (C5_degraded_fallback_amended demoStore ["x"] [] [] 10 1 (-1/2)
      (fun l n => l.take n) rfl).2.2 (by decide)
    (fun id hid => by
      rw [show id = "x" by simpa using hid]
      exact recVecLookup_demoStore_x)
    (fun id hid => absurd hid (List.not_mem_nil id))

/-- C4 — The claim is right and the code wrong (`db_init/init.py`
indexing loop): an item whose concatenated text attributes are empty
after cleaning is recorded with an explicit all-zero feature vector,
not with no vector; and because `rec_engine.py` loads vectors without
validity checks, that item can appear in the ranking output (here it is
the sole recommendation, scored `0.0` against the user's preference).
`es_service._generate_feature_vector` implements the claimed absence
policy, confirming the intent. -/
theorem C4_empty_text_zero_vector_bug :
    prepareRecipeText emptyRecipe = "" ∧
      (∀ (D : ℕ) (fitted : RecipeDoc → List ℝ),
        initIndexedVector D fitted emptyRecipe = List.replicate D 0) ∧
      RawVec.allZero [JsonNum.num 0, JsonNum.num 0] = true ∧
      recEngineGenerate c4Store ["good"] [] [] 10 1 (-1/2)
        (fun l n => l.take n) = ["empty"] := by
  refine ⟨rfl, ?_, by decide, ?_⟩
  · intro D fitted
    rw [initIndexedVector,
      show prepareRecipeText emptyRecipe = "" from rfl,
      if_pos (by decide)]
  · rfl

/-- Counterexample to C7 as stated: a cold-start request with `k = 1`
returns two ids (the cold path hardcodes 10 and returns every available
item), and both returned items have only an all-zero — invalid —
stored vector, so the sample is not drawn from items with a valid
vector. -/
theorem C7_cold_start_counterexample :
    getRecommendations c7Store [] [] 1 (fun l n => l.take n) =
        ["a", "b"] ∧
      (getRecommendations c7Store [] [] 1
        (fun l n => l.take n)).length ≠ 1 ∧
      hasValidVector c7Store "a" = false ∧
      hasValidVector c7Store "b" = false := by
  have h : getRecommendations c7Store [] [] 1 (fun l n => l.take n) =
      ["a", "b"] := by
    unfold getRecommendations
    rw [if_pos (by decide)]
    rfl
  exact ⟨h, by rw [h]; decide, by decide, by decide⟩

/-- C7 amended — For a user with empty liked and disliked feedback (and
an empty queue, which is what routes the request here),
`get_recommendations` ignores `k` and returns `min(10, n)` distinct ids
drawn from the items that have a present (non-NULL) vector — valid or
not; all of them when at most 10 exist, else a random sample of 10.
The `rec_engine` variant honors `k`, sampling `min(k, n)` ids from the
rows whose vector parses. -/
theorem C7_cold_start_amended (store : Store)
    (liked disliked : List String) (k : ℕ)
    (sample : List String → ℕ → List String)
    (hl : liked = []) (hd : disliked = [])
    (hnodup : (store.map Prod.fst).Nodup)
    (hsample : ∀ n : ℕ, n ≤ (Store.presentIds store).length →
      (sample (Store.presentIds store) n).length = n ∧
        (sample (Store.presentIds store) n).Nodup ∧
        ∀ x ∈ sample (Store.presentIds store) n,
          x ∈ Store.presentIds store) :
    (getRecommendations store liked disliked k sample).length =
        min 10 (Store.presentIds store).length ∧
      (getRecommendations store liked disliked k sample).Nodup ∧
      (∀ x ∈ getRecommendations store liked disliked k sample,
        x ∈ Store.presentIds store) ∧
      ((recVectors store).isEmpty = false →
        recEngineGenerate store liked disliked [] k 1 (-1/2) sample =
          sample (Store.presentIds store)
            (min k (Store.presentIds store).length)) := by
  subst hl; subst hd
  have hpn : (Store.presentIds store).Nodup := by
    apply hnodup.sublist
    unfold Store.presentIds
    exact (List.filter_sublist store).map Prod.fst
  have hfe : (Store.presentIds store).filter
      (fun id => !(([] ++ ([] : List String)).contains id)) =
      Store.presentIds store :=
    List.filter_eq_self.mpr (fun x _ => rfl)
  have hcold : getRecommendations store [] [] k sample =
      getRandomRecipes store 10 ([] ++ []) sample := by
    unfold getRecommendations
    rw [if_pos (by decide)]
  rw [hcold]
  unfold getRandomRecipes
  rw [hfe]
  by_cases hle : (Store.presentIds store).length ≤ 10
  · rw [if_pos hle]
    refine ⟨?_, hpn, fun x hx => hx, ?_⟩
    · omega
    · intro hmat
      unfold recEngineGenerate
      rw [if_neg (by rw [hmat]; simp), if_pos (by decide)]
  · rw [if_neg hle]
    obtain ⟨hlen, hnd, hsub⟩ := hsample 10 (by omega)
    refine ⟨?_, hnd, hsub, ?_⟩
    · omega
    · intro hmat
      unfold recEngineGenerate
      rw [if_neg (by rw [hmat]; simp), if_pos (by decide)]

/-- Witness for C7's amended theorem on the demo corpus. -/
theorem C7_cold_start_amended_witness :
    (demoStore.map Prod.fst).Nodup ∧
      ((getRecommendations demoStore [] [] 3
            (fun l n => l.take n)).length =
          min 10 (Store.presentIds demoStore).length ∧
        (getRecommendations demoStore [] [] 3
          (fun l n => l.take n)).Nodup ∧
        recEngineGenerate demoStore [] [] [] 3 1 (-1/2)
            (fun l n => l.take n) =
          (fun (l : List String) (n : ℕ) => l.take n)
            (Store.presentIds demoStore)
            (min 3 (Store.presentIds demoStore).length)) := by
  have hsample : ∀ n : ℕ, n ≤ (Store.presentIds demoStore).length →
      ((Store.presentIds demoStore).take n).length = n ∧
        ((Store.presentIds demoStore).take n).Nodup ∧
        ∀ x ∈ (Store.presentIds demoStore).take n,
          x ∈ Store.presentIds demoStore :=
    fun n hn => ⟨by rw [List.length_take]; omega,
      (by decide : (Store.presentIds demoStore).Nodup).sublist
        (List.take_sublist n _),
      fun x hx => List.take_subset n _ hx⟩
  refine ⟨by decide, ?_, ?_, ?_⟩
  · exact (C7_cold_start_amended demoStore [] [] 3 (fun l n => l.take n)
      rfl rfl (by decide) hsample).1
  · exact (C7_cold_start_amended demoStore [] [] 3 (fun l n => l.take n)
      rfl rfl (by decide) hsample).2.1
  · exact (C7_cold_start_amended demoStore [] [] 3 (fun l n => l.take n)
      rfl rfl (by decide) hsample).2.2.2 rfl

theorem alookup_upsert {κ ν : Type} [DecidableEq κ]
    (tbl : List (κ × ν)) (k : κ) (v : ν) :
    alookup (upsert tbl k v) k = some v := by
  unfold upsert
  by_cases h : (tbl.any (fun row => row.1 = k)) = true
  · rw [if_pos h]
    induction tbl with
    | nil => cases h
    | cons row rest ih =>
      rw [List.map_cons]
      by_cases hr : row.1 = k
      · rw [if_pos hr, alookup, List.find?_cons_of_pos _ (by simp [hr])]
        rfl
      · rw [if_neg hr, alookup, List.find?_cons_of_neg _ (by simp [hr])]
        have hrest : (rest.any (fun row => row.1 = k)) = true := by
          rw [List.any_cons] at h
          simpa [hr] using h
        exact ih hrest
  · rw [if_neg h]
    rw [Bool.not_eq_true, List.any_eq_false] at h
    induction tbl with
    | nil =>
      rw [List.nil_append, alookup,
        List.find?_cons_of_pos _ (by simp)]
      rfl
    | cons row rest ih =>
      rw [List.cons_append, alookup,
        List.find?_cons_of_neg _ (by simpa using h row (by simp))]
      exact ih fun r hr => h r (List.mem_cons_of_mem row hr)

theorem length_filter_upsert {κ ν : Type} [DecidableEq κ]
    (tbl : List (κ × ν)) (k : κ) (v : ν)
    (hnodup : (tbl.map Prod.fst).Nodup) :
    ((upsert tbl k v).filter (fun row => row.1 = k)).length = 1 := by
  unfold upsert
  by_cases h : (tbl.any (fun row => row.1 = k)) = true
  · rw [if_pos h]
    induction tbl with
    | nil => cases h
    | cons row rest ih =>
      rw [List.map_cons] at hnodup ⊢
      rw [List.nodup_cons] at hnodup
      rw [List.filter_cons]
      by_cases hr : row.1 = k
      · rw [if_pos hr]
        have hknotin : k ∉ rest.map Prod.fst := by
          rw [← hr]
          exact hnodup.1
        have hmapfilter : (rest.map
            (fun row => if row.1 = k then (row.1, v) else row)).filter
              (fun row => decide (row.1 = k)) = [] := by
          apply List.filter_eq_nil_iff.mpr
          intro r hrmem
          rw [List.mem_map] at hrmem
          obtain ⟨r0, hr0, hr0e⟩ := hrmem
          have hr0k : ¬ r0.1 = k := by
            intro hk
            exact hknotin (List.mem_map.mpr ⟨r0, hr0, hk⟩)
          rw [if_neg hr0k] at hr0e
          rw [← hr0e]
          simpa using hr0k
        rw [if_pos (by simpa using hr), hmapfilter]
        rfl
      · rw [if_neg hr]
        have hrest : (rest.any (fun row => row.1 = k)) = true := by
          rw [List.any_cons] at h
          simpa [hr] using h
        rw [if_neg (by simpa using hr)]
        exact ih hnodup.2 hrest
  · rw [if_neg h]
    rw [Bool.not_eq_true, List.any_eq_false] at h
    rw [List.filter_append]
    have h1 : tbl.filter (fun row => decide (row.1 = k)) = [] := by
      apply List.filter_eq_nil_iff.mpr
      intro r hr
      simpa using h r hr
    rw [h1, List.nil_append, List.filter_cons, if_pos (by simp)]
    rfl

/-- Counterexample to C6 as stated: with stored queue `[x, y]`,
submitting feedback on `x` persists a queue holding only the single
replacement — length 1, not the original length 2 (`one popped, one
pushed` fails: the whole list is replaced). -/
theorem C6_queue_replaced_counterexample :
    alookup (submitFeedback [] [("u", ["x", "y"])] "u" "x" "like"
        (fun _fbk _prev _n => ["r"])).1 ("u", "x") = some "like" ∧
      dbGetRecommendations (submitFeedback [] [("u", ["x", "y"])] "u"
        "x" "like" (fun _fbk _prev _n => ["r"])).2.1 "u" = ["r"] ∧
      (dbGetRecommendations (submitFeedback [] [("u", ["x", "y"])] "u"
          "x" "like" (fun _fbk _prev _n => ["r"])).2.1 "u").length = 1 ∧
      (dbGetRecommendations [("u", ["x", "y"])] "u").length = 2 := by
  decide

/-- C6 amended — After `submit feedback(u, x, polarity)` the feedback
record is stored with the new polarity (upsert: exactly one record per
(user, item) pair, last write wins) and `x` is removed from the stored
queue; exactly one replacement is generated, but the persisted queue
becomes exactly the one-element list holding that replacement —
`save_recommendations` replaces the stored list — so the queue length
becomes 1 rather than being preserved. -/
theorem C6_feedback_upsert_queue_amended (fb : FeedbackTable)
    (rec : RecTable) (u x pol r : String)
    (gen : List String × List String → List String → ℕ → List String)
    (hgen : gen (dbGetFeedback (dbSaveFeedback fb u x pol) u)
      (dbGetRecommendations (dbRemoveRecommendation rec u x) u) 1 = [r])
    (hnodup : (fb.map Prod.fst).Nodup) :
    (submitFeedback fb rec u x pol gen).2.2 = some r ∧
      alookup (submitFeedback fb rec u x pol gen).1 (u, x) = some pol ∧
      ((submitFeedback fb rec u x pol gen).1.filter
        (fun row => row.1 = (u, x))).length = 1 ∧
      dbGetRecommendations (submitFeedback fb rec u x pol gen).2.1 u =
        [r] ∧
      (x ≠ r →
        x ∉ dbGetRecommendations
          (submitFeedback fb rec u x pol gen).2.1 u) := by
  have hsf : submitFeedback fb rec u x pol gen =
      (dbSaveFeedback fb u x pol,
        dbSaveRecommendations (dbRemoveRecommendation rec u x) u [r],
        some r) := by
    simp only [submitFeedback, hgen, List.head?_cons]
  rw [hsf]
  refine ⟨rfl, alookup_upsert fb (u, x) pol,
    length_filter_upsert fb (u, x) pol hnodup, ?_, ?_⟩
  · rw [dbGetRecommendations, dbSaveRecommendations,
      alookup_upsert _ u [r]]
    rfl
  · intro hxr hmem
    rw [dbGetRecommendations, dbSaveRecommendations,
      alookup_upsert _ u [r]] at hmem
    exact hxr (by simpa using hmem)

/-- Witness for C6's amended theorem at the concrete counterexample
tables. -/
theorem C6_feedback_upsert_queue_amended_witness :
    ((fun (_fbk : List String × List String) (_prev : List String)
        (_n : ℕ) => ["r"])
      (dbGetFeedback (dbSaveFeedback [] "u" "x" "like") "u")
      (dbGetRecommendations
        (dbRemoveRecommendation [("u", ["x", "y"])] "u" "x") "u") 1 =
        ["r"]) ∧
      (([] : FeedbackTable).map Prod.fst).Nodup ∧
      ((submitFeedback [] [("u", ["x", "y"])] "u" "x" "like"
          (fun _fbk _prev _n => ["r"])).2.2 = some "r" ∧
        alookup (submitFeedback [] [("u", ["x", "y"])] "u" "x" "like"
          (fun _fbk _prev _n => ["r"])).1 ("u", "x") = some "like" ∧
        ((submitFeedback [] [("u", ["x", "y"])] "u" "x" "like"
            (fun _fbk _prev _n => ["r"])).1.filter
          (fun row => row.1 = ("u", "x"))).length = 1 ∧
        dbGetRecommendations (submitFeedback [] [("u", ["x", "y"])] "u"
          "x" "like" (fun _fbk _prev _n => ["r"])).2.1 "u" = ["r"] ∧
        "x" ∉ dbGetRecommendations (submitFeedback []
          [("u", ["x", "y"])] "u" "x" "like"
          (fun _fbk _prev _n => ["r"])).2.1 "u") := by
  refine ⟨rfl, by decide, ?_, ?_, ?_, ?_, ?_⟩
  · exact (C6_feedback_upsert_queue_amended [] [("u", ["x", "y"])] "u"
      "x" "like" "r" (fun _fbk _prev _n => ["r"]) rfl (by decide)).1
  · exact (C6_feedback_upsert_queue_amended [] [("u", ["x", "y"])] "u"
      "x" "like" "r" (fun _fbk _prev _n => ["r"]) rfl (by decide)).2.1
  · exact (C6_feedback_upsert_queue_amended [] [("u", ["x", "y"])] "u"
      "x" "like" "r" (fun _fbk _prev _n => ["r"]) rfl (by decide)).2.2.1
  · exact (C6_feedback_upsert_queue_amended [] [("u", ["x", "y"])] "u"
      "x" "like" "r"
      (fun _fbk _prev _n => ["r"]) rfl (by decide)).2.2.2.1
  · exact (C6_feedback_upsert_queue_amended [] [("u", ["x", "y"])] "u"
      "x" "like" "r"
      (fun _fbk _prev _n => ["r"]) rfl (by decide)).2.2.2.2 (by decide)

end Sprinkl

